import Mathlib

/-!
Verification of the capital-gains calculator core (`cgt_calc`).

Shallow embedding conventions:
* Python `Decimal` values are modelled as exact rationals (`ℚ`).  `Decimal`
  addition, subtraction and multiplication are exact; the program's explicit
  rounding points (`round_decimal`, which uses `decimal.ROUND_HALF_UP`) are
  modelled by `round_decimal` below (round half away from zero).
* Calendar dates are modelled as integers (a day index); `date + timedelta(days=n)`
  becomes integer addition.
* A Python `assert` failure, `KeyError`, or a `Decimal` division by zero aborts
  the program, so the corresponding Lean functions return `Option` results and
  yield `none` in exactly those situations.
* `dict[date][symbol]` maps (`HmrcTransactionLog`) are modelled as functions
  `ℤ → String → Option HmrcTransactionData`; `defaultdict(Position)` portfolios
  are modelled as total functions `String → Position` (missing = zero position).
* `dict` iteration order (insertion order in Python) is made explicit: wherever
  the source iterates over the keys of a dict, the embedding takes the key list
  as an argument.
-/

namespace CgtCalc

/-- `util.round_decimal` rounds with `decimal.ROUND_HALF_UP`: to the nearest
multiple of `10 ^ (-digits)`, ties away from zero.  Helper on integers. -/
def round_half_up (q : ℚ) : ℤ :=
  if 0 ≤ q then ⌊q + 1 / 2⌋ else -⌊-q + 1 / 2⌋

/-- `util.round_decimal value digits`. -/
def round_decimal (q : ℚ) (digits : ℕ) : ℚ :=
  (round_half_up (q * 10 ^ digits) : ℚ) / 10 ^ digits

/-- `model.HmrcTransactionData`: aggregated quantity/amount/fees for one
(date, symbol) pair. -/
structure HmrcTransactionData where
  quantity : ℚ := 0
  amount : ℚ := 0
  fees : ℚ := 0
  deriving DecidableEq, Repr

/-- `HmrcTransactionData.__add__`. -/
instance : Add HmrcTransactionData :=
  ⟨fun a b => ⟨a.quantity + b.quantity, a.amount + b.amount, a.fees + b.fees⟩⟩

/-- `model.Position`: the Section 104 holding for one symbol. -/
structure Position where
  quantity : ℚ := 0
  amount : ℚ := 0
  deriving DecidableEq, Repr

/-- `Position.__add__`. -/
instance : Add Position :=
  ⟨fun a b => ⟨a.quantity + b.quantity, a.amount + b.amount⟩⟩

/-- `Position.__sub__`. -/
instance : Sub Position :=
  ⟨fun a b => ⟨a.quantity - b.quantity, a.amount - b.amount⟩⟩

@[simp] theorem HmrcTransactionData.htd_add_quantity (a b : HmrcTransactionData) :
    (a + b).quantity = a.quantity + b.quantity := rfl

@[simp] theorem HmrcTransactionData.htd_add_amount (a b : HmrcTransactionData) :
    (a + b).amount = a.amount + b.amount := rfl

@[simp] theorem HmrcTransactionData.add_fees (a b : HmrcTransactionData) :
    (a + b).fees = a.fees + b.fees := rfl

@[simp] theorem Position.add_def (a b : Position) :
    a + b = ⟨a.quantity + b.quantity, a.amount + b.amount⟩ := rfl

@[simp] theorem Position.add_quantity (a b : Position) :
    (a + b).quantity = a.quantity + b.quantity := rfl

@[simp] theorem Position.add_amount (a b : Position) :
    (a + b).amount = a.amount + b.amount := rfl

@[simp] theorem Position.sub_quantity (a b : Position) :
    (a - b).quantity = a.quantity - b.quantity := rfl

@[simp] theorem Position.sub_amount (a b : Position) :
    (a - b).amount = a.amount - b.amount := rfl

/-- `model.RuleType`. -/
inductive RuleType where
  | SECTION_104
  | SAME_DAY
  | BED_AND_BREAKFAST
  | SPIN_OFF
  deriving DecidableEq, Repr

/-- `model.SpinOff`: a queued spin-off cost adjustment. -/
structure SpinOff where
  cost_proportion : ℚ
  source : String
  dest : String
  date : ℤ
  deriving DecidableEq, Repr

/-- `model.CalculationEntry`: one audit-log line.  In the source, `gain` is a
`Decimal` field that the spin-off entry explicitly sets to `None`, hence
`Option ℚ` here (default `Decimal(0)`). -/
structure CalculationEntry where
  rule_type : RuleType
  quantity : ℚ
  amount : ℚ
  fees : ℚ
  new_quantity : ℚ
  new_pool_cost : ℚ
  gain : Option ℚ := some 0
  allowable_cost : ℚ := 0
  bed_and_breakfast_date_index : Option ℤ := none
  spin_off : Option SpinOff := none
  deriving DecidableEq, Repr

/-- `model.HmrcTransactionLog` as a lookup function (date, symbol ↦ data). -/
def TxLog : Type := ℤ → String → Option HmrcTransactionData

/-- Modelled from the spec: `transaction_log.has_key` (the module
`cgt_calc/transaction_log.py` is not among the sources; per spec §3 the log is
a date → symbol → data mapping). -/
def has_key (log : TxLog) (d : ℤ) (s : String) : Bool :=
  (log d s).isSome

/-- Modelled from the spec: `transaction_log.add_to_list` (module missing from
the sources).  Per spec §3, multiple events for the same (date, symbol) are
summed into a single aggregated entry. -/
def add_to_list (log : TxLog) (d : ℤ) (s : String) (quantity amount fees : ℚ) :
    TxLog :=
  fun d2 s2 =>
    if d2 = d ∧ s2 = s then
      some (((log d s).getD {}) + HmrcTransactionData.mk quantity amount fees)
    else log d2 s2

/-- Point update of a `defaultdict(Position)` portfolio. -/
def updatePos (p : String → Position) (s : String) (v : Position) :
    String → Position :=
  fun t => if t = s then v else p t

/-- Mutable state of `CapitalGainsCalculator` during the second pass, together
with the spin-off queue owned by `HmrcTransactions` (field `spin_offs`), which
the pass mutates in place. -/
structure CalcState where
  portfolio : String → Position
  bnb_list : TxLog
  spin_offs : List (ℤ × List SpinOff)

/-- Body of the inner loop of the spin-off scan in
`CapitalGainsCalculator._process_disposal` (calculator.py lines 149-180):
apply one `SpinOff` to the source symbol's pool cost and record the audit
entry (overwriting any previous one, as the single `spin_off_entry` variable
does). -/
def applySpinOffStep (pe : (String → Position) × Option CalculationEntry)
    (so : SpinOff) : (String → Position) × Option CalculationEntry :=
  let amount := (pe.1 so.source).amount
  let quantity := (pe.1 so.source).quantity
  let new_amount := amount * so.cost_proportion
  (updatePos pe.1 so.source ⟨quantity, new_amount⟩,
   some { rule_type := RuleType.SPIN_OFF
          quantity := quantity
          amount := -amount
          fees := 0
          new_quantity := quantity
          new_pool_cost := new_amount
          gain := none
          allowable_cost := new_amount
          spin_off := some so })

/-- The spin-off scan of `_process_disposal` (calculator.py lines 146-180).
For each queued date `≤ date_index` the source iterates over the stored list
while reassigning `spin_offs[date] = spin_offs[1:]` on every iteration; since
`spin_offs` is the list bound at loop entry, the stored value after the loop
is the original list with only its first element removed. -/
def applySpinOffs (date_index : ℤ) (queue : List (ℤ × List SpinOff))
    (port : String → Position) (ent : Option CalculationEntry) :
    List (ℤ × List SpinOff) × (String → Position) × Option CalculationEntry :=
  match queue with
  | [] => ([], port, ent)
  | (d, l) :: rest =>
    if date_index < d then
      let r := applySpinOffs date_index rest port ent
      ((d, l) :: r.1, r.2)
    else
      let pe := l.foldl applySpinOffStep (port, ent)
      let r := applySpinOffs date_index rest pe.1 pe.2
      ((d, l.drop 1) :: r.1, r.2)

/-- Modelled from the spec: `const.BED_AND_BREAKFAST_DAYS` (the module
`cgt_calc/const.py` is not among the sources; spec §4.2 and the glossary fix
the bed-and-breakfast lookahead window at 30 days). -/
def BED_AND_BREAKFAST_DAYS : ℕ := 30

/-- Result of `CapitalGainsCalculator._process_acquisition`. -/
structure AcqResult where
  state : CalcState
  entries : List CalculationEntry

/-- `CapitalGainsCalculator._process_acquisition` (calculator.py lines 61-129).
`none` models a Python `assert` failure or `KeyError`. -/
def process_acquisition (acquisition_list : TxLog) (symbol : String)
    (date_index : ℤ) (st : CalcState) : Option AcqResult :=
  match acquisition_list date_index symbol with
  | none => none
  | some acquisition =>
    let position := st.portfolio symbol
    if ¬ (0 ≤ acquisition.quantity) then none
    else if ¬ (0 ≤ acquisition.amount) then none
    else
      let step1 : Option (ℚ × HmrcTransactionData × ℚ × List CalculationEntry) :=
        if 0 < acquisition.quantity ∧ has_key st.bnb_list date_index symbol then
          let acquisition_price := acquisition.amount / acquisition.quantity
          let bnb_acquisition := (st.bnb_list date_index symbol).getD {}
          if ¬ (bnb_acquisition.quantity ≤ acquisition.quantity) then none
          else
            let modified_amount := acquisition.amount -
              bnb_acquisition.quantity * acquisition_price + bnb_acquisition.amount
            if ¬ (0 < modified_amount) then none
            else
              let bb_fees := acquisition.fees * bnb_acquisition.quantity /
                acquisition.quantity
              some (modified_amount, bnb_acquisition, bb_fees,
                [{ rule_type := RuleType.BED_AND_BREAKFAST
                   quantity := bnb_acquisition.quantity
                   amount := -bnb_acquisition.amount
                   new_quantity := position.quantity + bnb_acquisition.quantity
                   new_pool_cost := position.amount + bnb_acquisition.amount
                   fees := bb_fees
                   allowable_cost := acquisition.amount }])
        else some (acquisition.amount, {}, 0, [])
      match step1 with
      | none => none
      | some (modified_amount, bnb_acquisition, bb_fees, entries0) =>
        let portfolio2 := updatePos st.portfolio symbol
          (position + Position.mk acquisition.quantity modified_amount)
        let entries :=
          if 0 < acquisition.quantity - bnb_acquisition.quantity ∨
              bnb_acquisition.quantity = 0 then
            let so := ((st.spin_offs.lookup date_index).getD []).find?
              (fun so => so.dest = symbol)
            entries0 ++
              [{ rule_type := RuleType.SECTION_104
                 quantity := acquisition.quantity - bnb_acquisition.quantity
                 amount := -(modified_amount - bnb_acquisition.amount)
                 new_quantity := position.quantity + acquisition.quantity
                 new_pool_cost := position.amount + modified_amount
                 fees := acquisition.fees - bb_fees
                 allowable_cost := acquisition.amount
                 spin_off := so }]
          else entries0
        some ⟨⟨portfolio2, st.bnb_list, st.spin_offs⟩, entries⟩

/-- The local mutable variables of `_process_disposal` while the three
matching tiers run (`disposal_quantity`, `proceeds_amount`,
`current_quantity`, `current_amount`, `self.bnb_list`, `chargeable_gain`,
`calculation_entries`). -/
structure TierState where
  disposal_quantity : ℚ
  proceeds_amount : ℚ
  current_quantity : ℚ
  current_amount : ℚ
  bnb_list : TxLog
  chargeable_gain : ℚ
  entries : List CalculationEntry

/-- Same-day tier of `_process_disposal` (calculator.py lines 186-230). -/
def same_day_tier (acquisition_list : TxLog) (symbol : String) (date_index : ℤ)
    (disposal_price disposal_fees original_disposal_quantity : ℚ)
    (s : TierState) : Option TierState :=
  match acquisition_list date_index symbol with
  | none => some s
  | some same_day_acquisition =>
    let available_quantity := min s.disposal_quantity same_day_acquisition.quantity
    if 0 < available_quantity then
      let acquisition_price :=
        same_day_acquisition.amount / same_day_acquisition.quantity
      let same_day_proceeds := available_quantity * disposal_price
      let same_day_allowable_cost := available_quantity * acquisition_price
      let same_day_gain := same_day_proceeds - same_day_allowable_cost
      let current_quantity := s.current_quantity - available_quantity
      let current_amount := s.current_amount - available_quantity * acquisition_price
      if current_quantity = 0 ∧ ¬ (round_decimal current_amount 23 = 0) then none
      else
        let fees := disposal_fees * available_quantity / original_disposal_quantity
        some { disposal_quantity := s.disposal_quantity - available_quantity
               proceeds_amount :=
                 s.proceeds_amount - available_quantity * disposal_price
               current_quantity := current_quantity
               current_amount := current_amount
               bnb_list := s.bnb_list
               chargeable_gain := s.chargeable_gain + same_day_gain
               entries := s.entries ++
                 [{ rule_type := RuleType.SAME_DAY
                    quantity := available_quantity
                    amount := same_day_proceeds
                    gain := some same_day_gain
                    allowable_cost := same_day_allowable_cost
                    fees := fees
                    new_quantity := current_quantity
                    new_pool_cost := current_amount }] }
    else some s

/-- One iteration of the bed-and-breakfast scan of `_process_disposal`
(calculator.py lines 234-331), looking `i + 1` days ahead. -/
def bnb_step (acquisition_list disposal_list : TxLog) (symbol : String)
    (date_index : ℤ)
    (disposal_price disposal_fees original_disposal_quantity : ℚ)
    (s : TierState) (i : ℕ) : Option TierState :=
  let search_index := date_index + ((i : ℤ) + 1)
  match acquisition_list search_index symbol with
  | none => some s
  | some acquisition =>
    let bnb_acquisition := (s.bnb_list search_index symbol).getD {}
    if ¬ (bnb_acquisition.quantity ≤ acquisition.quantity) then none
    else
      let same_day_disposal := (disposal_list search_index symbol).getD {}
      if acquisition.quantity < same_day_disposal.quantity then some s
      else if acquisition.quantity - same_day_disposal.quantity -
          bnb_acquisition.quantity = 0 then some s
      else
        let available_quantity := min s.disposal_quantity
          (acquisition.quantity - same_day_disposal.quantity -
            bnb_acquisition.quantity)
        if acquisition.quantity = 0 then none
        else
          let acquisition_price := acquisition.amount / acquisition.quantity
          let bb_proceeds := available_quantity * disposal_price
          let bb_allowable_cost := available_quantity * acquisition_price
          let bb_gain := bb_proceeds - bb_allowable_cost
          if s.current_quantity = 0 then none
          else
            let current_price := s.current_amount / s.current_quantity
            let amount_delta := available_quantity * current_price
            let current_quantity := s.current_quantity - available_quantity
            let current_amount := s.current_amount - amount_delta
            if current_quantity = 0 ∧ ¬ (round_decimal current_amount 23 = 0) then
              none
            else
              some { disposal_quantity := s.disposal_quantity - available_quantity
                     proceeds_amount := s.proceeds_amount - bb_proceeds
                     current_quantity := current_quantity
                     current_amount := current_amount
                     bnb_list := add_to_list s.bnb_list search_index symbol
                       available_quantity amount_delta 0
                     chargeable_gain := s.chargeable_gain + bb_gain
                     entries := s.entries ++
                       [{ rule_type := RuleType.BED_AND_BREAKFAST
                          quantity := available_quantity
                          amount := bb_proceeds
                          gain := some bb_gain
                          allowable_cost := bb_allowable_cost
                          fees := disposal_fees * available_quantity /
                            original_disposal_quantity
                          bed_and_breakfast_date_index := some search_index
                          new_quantity := current_quantity
                          new_pool_cost := current_amount }] }

/-- Section 104 tier of `_process_disposal` (calculator.py lines 332-362). -/
def section_104_tier (disposal_fees original_disposal_quantity : ℚ)
    (s : TierState) : Option TierState :=
  if 0 < s.disposal_quantity then
    if s.current_quantity = 0 then none
    else
      let allowable_cost :=
        s.current_amount * s.disposal_quantity / s.current_quantity
      let current_quantity := s.current_quantity - s.disposal_quantity
      let current_amount := s.current_amount - allowable_cost
      if current_quantity = 0 ∧ ¬ (round_decimal current_amount 10 = 0) then none
      else
        let fees := disposal_fees * s.disposal_quantity / original_disposal_quantity
        some { disposal_quantity := 0
               proceeds_amount := s.proceeds_amount
               current_quantity := current_quantity
               current_amount := current_amount
               bnb_list := s.bnb_list
               chargeable_gain :=
                 s.chargeable_gain + (s.proceeds_amount - allowable_cost)
               entries := s.entries ++
                 [{ rule_type := RuleType.SECTION_104
                    quantity := s.disposal_quantity
                    amount := s.proceeds_amount
                    gain := some (s.proceeds_amount - allowable_cost)
                    allowable_cost := allowable_cost
                    fees := fees
                    new_quantity := current_quantity
                    new_pool_cost := current_amount }] }
  else some s

/-- Result of `_process_disposal`: the rounded chargeable gain, the disposal's
calculation entries, the (last) spin-off audit entry, and the new state. -/
structure DispResult where
  chargeable_gain : ℚ
  entries : List CalculationEntry
  spin_off_entry : Option CalculationEntry
  state : CalcState

/-- `CapitalGainsCalculator._process_disposal` (calculator.py lines 131-369).
`none` models an `assert` failure, `KeyError`, or `Decimal` division by
zero. -/
def process_disposal (acquisition_list disposal_list : TxLog) (symbol : String)
    (date_index : ℤ) (st : CalcState) : Option DispResult :=
  match disposal_list date_index symbol with
  | none => none
  | some disposal =>
    if disposal.quantity = 0 then none
    else
      let original_disposal_quantity := disposal.quantity
      let disposal_price := disposal.amount / disposal.quantity
      let current_quantity0 := (st.portfolio symbol).quantity
      let soRes := applySpinOffs date_index st.spin_offs st.portfolio none
      let spin_offs2 := soRes.1
      let portfolio2 := soRes.2.1
      let spin_off_entry := soRes.2.2
      let current_amount0 := (portfolio2 symbol).amount
      if ¬ (disposal.quantity ≤ current_quantity0) then none
      else
        let s0 : TierState :=
          ⟨disposal.quantity, disposal.amount, current_quantity0,
            current_amount0, st.bnb_list, 0, []⟩
        match same_day_tier acquisition_list symbol date_index disposal_price
            disposal.fees original_disposal_quantity s0 with
        | none => none
        | some s1 =>
          let afterBnb :=
            if 0 < s1.disposal_quantity then
              (List.range BED_AND_BREAKFAST_DAYS).foldlM
                (bnb_step acquisition_list disposal_list symbol date_index
                  disposal_price disposal.fees original_disposal_quantity) s1
            else some s1
          match afterBnb with
          | none => none
          | some s2 =>
            match section_104_tier disposal.fees original_disposal_quantity s2 with
            | none => none
            | some s3 =>
              if ¬ (round_decimal s3.disposal_quantity 23 = 0) then none
              else
                some { chargeable_gain := round_decimal s3.chargeable_gain 2
                       entries := s3.entries
                       spin_off_entry := spin_off_entry
                       state :=
                         { portfolio := updatePos portfolio2 symbol
                             ⟨s3.current_quantity, s3.current_amount⟩
                           bnb_list := s3.bnb_list
                           spin_offs := spin_offs2 } }

/-- The acquisition loop of one calendar day in `calculate_capital_gain`
(calculator.py lines 389-399); the symbol list is the dict insertion order. -/
def processDayAcqs (acquisition_list : TxLog) (date_index : ℤ) :
    List String → CalcState →
    Option (CalcState × List (String × List CalculationEntry))
  | [], st => some (st, [])
  | s :: rest, st =>
    match process_acquisition acquisition_list s date_index st with
    | none => none
    | some r =>
      match processDayAcqs acquisition_list date_index rest r.state with
      | none => none
      | some (st2, log) => some (st2, (s, r.entries) :: log)

/-- What one disposal contributes to the per-day log: its rounded chargeable
gain, its calculation entries, and the (last) spin-off entry. -/
structure SellRecord where
  chargeable_gain : ℚ
  entries : List CalculationEntry
  spin_off_entry : Option CalculationEntry

/-- The disposal loop of one calendar day in `calculate_capital_gain`
(calculator.py lines 400-458), without the in-tax-year aggregation. -/
def processDayDisps (acquisition_list disposal_list : TxLog) (date_index : ℤ) :
    List String → CalcState → Option (CalcState × List (String × SellRecord))
  | [], st => some (st, [])
  | s :: rest, st =>
    match process_disposal acquisition_list disposal_list s date_index st with
    | none => none
    | some r =>
      match processDayDisps acquisition_list disposal_list date_index rest
          r.state with
      | none => none
      | some (st2, log) =>
        some (st2, (s, ⟨r.chargeable_gain, r.entries, r.spin_off_entry⟩) :: log)

/-- Result of processing one calendar day. -/
structure DayResult where
  state : CalcState
  buys : List (String × List CalculationEntry)
  sells : List (String × SellRecord)

/-- One calendar day of the second pass: all acquisitions of the day, then all
disposals of the day (calculator.py lines 389-458). -/
def processDay (acquisition_list disposal_list : TxLog) (date_index : ℤ)
    (acq_symbols disp_symbols : List String) (st : CalcState) :
    Option DayResult :=
  match processDayAcqs acquisition_list date_index acq_symbols st with
  | none => none
  | some (st1, buys) =>
    match processDayDisps acquisition_list disposal_list date_index disp_symbols
        st1 with
    | none => none
    | some (st2, sells) => some ⟨st2, buys, sells⟩

/-! ## First-pass ledger builder (`hmrc_transactions.py`) -/

/-- `hmrc_transactions._approx_equal`: values are treated as equal when they
differ by less than `Decimal "0.10"`. -/
def approx_equal (a b : ℚ) : Prop := |a - b| < 1 / 10

instance (a b : ℚ) : Decidable (approx_equal a b) := by
  unfold approx_equal
  infer_instance

/-- The exceptions `_add_disposal` can raise. -/
inductive LedgerError where
  | SymbolMissingError
  | QuantityNotPositiveError
  | InvalidTransactionError
  | AmountMissingError
  | PriceMissingError
  | CalculatedAmountDiscrepancyError
  deriving DecidableEq, Repr

/-- `model.BrokerTransaction`, restricted to the fields the first-pass
disposal handler reads (action, description, currency and broker only select
the handler or feed the currency converter, which is a parameter here). -/
structure BrokerTransaction where
  date : ℤ
  symbol : Option String
  quantity : Option ℚ
  price : Option ℚ
  fees : ℚ
  amount : Option ℚ
  deriving DecidableEq, Repr

/-- The `HmrcTransactions` state `_add_disposal` touches: the running
(first-pass) portfolio — a dict whose entries are deleted when they reach
zero quantity, so membership is meaningful — and the disposal log. -/
structure LedgerState where
  portfolio : String → Option Position
  disposal_list : TxLog

/-- `HmrcTransactions._add_disposal` (hmrc_transactions.py lines 218-260).
`to_gbp` stands for `converter.to_gbp_for` (an external collaborator). -/
def add_disposal (to_gbp : ℚ → BrokerTransaction → ℚ)
    (st : LedgerState) (transaction : BrokerTransaction) :
    Except LedgerError LedgerState :=
  match transaction.symbol with
  | none => .error .SymbolMissingError
  | some symbol =>
    match st.portfolio symbol with
    | none => .error .InvalidTransactionError
    | some held =>
      match transaction.quantity with
      | none => .error .QuantityNotPositiveError
      | some quantity =>
        if quantity ≤ 0 then .error .QuantityNotPositiveError
        else if held.quantity < quantity then .error .InvalidTransactionError
        else
          match transaction.amount with
          | none => .error .AmountMissingError
          | some amount =>
            let newpos := held - Position.mk quantity amount
            let portfolio2 : String → Option Position := fun t =>
              if t = symbol then
                if newpos.quantity = 0 then none else some newpos
              else st.portfolio t
            match transaction.price with
            | none => .error .PriceMissingError
            | some price =>
              let calculated_amount := quantity * price - transaction.fees
              if ¬ approx_equal amount calculated_amount then
                .error .CalculatedAmountDiscrepancyError
              else
                .ok { portfolio := portfolio2
                      disposal_list := add_to_list st.disposal_list
                        transaction.date symbol quantity
                        (to_gbp amount transaction)
                        (to_gbp transaction.fees transaction) }

/-- `defaultdict(list)` append for the spin-off queue
(`self.spin_offs[transaction.date].append(...)`). -/
def appendSpinOff : List (ℤ × List SpinOff) → ℤ → SpinOff →
    List (ℤ × List SpinOff)
  | [], d, so => [(d, [so])]
  | (d2, l) :: rest, d, so =>
    if d2 = d then (d2, l ++ [so]) :: rest
    else (d2, l) :: appendSpinOff rest d so

/-- `HmrcTransactions._handle_spin_off` (hmrc_transactions.py lines 132-216).
External collaborators are parameters: `ticker` is the answer of
`spin_off_handler.get_spin_off_source`, and `dst_price` / `src_price` the
answers of `price_fetcher.get_closing_price` for the destination / source
symbol at the transaction date.  Returns `((price, amount), updated spin-off
queue)` exactly as the source returns `(amount / quantity,
round_decimal(amount, 2))` after queuing the `SpinOff` record. -/
def handle_spin_off (ticker : String) (dst_price src_price : ℚ)
    (portfolio : String → Position) (symbol : String) (quantity : ℚ)
    (date : ℤ) (queue : List (ℤ × List SpinOff)) :
    (ℚ × ℚ) × List (ℤ × List SpinOff) :=
  let dst_amount := quantity * dst_price
  let src_amount := (portfolio ticker).quantity * src_price
  let original_src_amount := (portfolio ticker).amount
  let share_of_original_cost := src_amount / (dst_amount + src_amount)
  let so : SpinOff := ⟨share_of_original_cost, ticker, symbol, date⟩
  let amount := (1 - share_of_original_cost) * original_src_amount
  ((amount / quantity, round_decimal amount 2), appendSpinOff queue date so)

/-! ## Report (`model.py`) and the top-level driver -/

/-- `model.PortfolioEntry`. -/
structure PortfolioEntry where
  symbol : String
  quantity : ℚ
  amount : ℚ
  unrealized_gains : Option ℚ
  deriving DecidableEq, Repr

/-- `model.CapitalGainsReport`. -/
structure CapitalGainsReport where
  tax_year : ℤ
  portfolio : List PortfolioEntry
  disposal_count : ℕ
  disposal_proceeds : ℚ
  allowable_costs : ℚ
  capital_gain : ℚ
  capital_loss : ℚ
  capital_gain_allowance : Option ℚ
  calculation_log : List (ℤ × String × List CalculationEntry)
  show_unrealized_gains : Bool

/-- `CapitalGainsReport.total_gain`. -/
def CapitalGainsReport.total_gain (r : CapitalGainsReport) : ℚ :=
  r.capital_gain + r.capital_loss

/-- `CapitalGainsReport.taxable_gain` (model.py lines 241-244): `none` models
the `assert self.capital_gain_allowance is not None` failure. -/
def CapitalGainsReport.taxable_gain (r : CapitalGainsReport) : Option ℚ :=
  match r.capital_gain_allowance with
  | none => none
  | some allowance => some (max 0 (r.total_gain - allowance))

/-- `CapitalGainsReport.total_unrealized_gains`. -/
def CapitalGainsReport.total_unrealized_gains (r : CapitalGainsReport) : ℚ :=
  (r.portfolio.filterMap (fun h => h.unrealized_gains)).sum

/-- `PortfolioEntry.unrealized_gains_str`. -/
def PortfolioEntry.unrealized_gains_str (e : PortfolioEntry) : String :=
  let str_val :=
    match e.unrealized_gains with
    | none => "unknown"
    | some v => "£" ++ reprStr (round_decimal v 2)
  " (unrealized gains: " ++ str_val ++ ")"

/-- `PortfolioEntry.__str__`. -/
def PortfolioEntry.toDisplay (e : PortfolioEntry) : String :=
  "  " ++ e.symbol ++ ": " ++ reprStr (round_decimal e.quantity 2) ++
    ", £" ++ reprStr (round_decimal e.amount 2)

/-- `CapitalGainsReport.__str__` (model.py lines 250-279).  Rational values
are rendered with `reprStr` in place of `Decimal.__str__`; the structure of
the output (in particular the branch printing the warning line when the
allowance is missing, instead of calling `taxable_gain`) follows the source.
`none` models the assertion failure inside `taxable_gain`. -/
def CapitalGainsReport.render (r : CapitalGainsReport) : Option String :=
  let out0 := "Portfolio at the end of " ++ reprStr r.tax_year ++ "/" ++
    reprStr (r.tax_year + 1) ++ " tax year:\n"
  let out1 := out0 ++ String.join (r.portfolio.map (fun e =>
    if 0 < e.quantity then
      e.toDisplay ++
        (if r.show_unrealized_gains then e.unrealized_gains_str else "") ++ "\n"
    else ""))
  let out2 := out1 ++ "For tax year " ++ reprStr r.tax_year ++ "/" ++
    reprStr (r.tax_year + 1) ++ ":\n" ++
    "Number of disposals: " ++ reprStr r.disposal_count ++ "\n" ++
    "Disposal proceeds: £" ++ reprStr r.disposal_proceeds ++ "\n" ++
    "Allowable costs: £" ++ reprStr r.allowable_costs ++ "\n" ++
    "Capital gain: £" ++ reprStr r.capital_gain ++ "\n" ++
    "Capital loss: £" ++ reprStr (-r.capital_loss) ++ "\n" ++
    "Total capital gain: £" ++ reprStr r.total_gain ++ "\n"
  let tail :=
    if r.show_unrealized_gains then
      "Total unrealized gains: £" ++
        reprStr (round_decimal r.total_unrealized_gains 2) ++ "\n" ++
        (if r.portfolio.any (fun h => h.unrealized_gains.isNone) then
          "WARNING: Some unrealized gains could not be calculated.\n"
        else "")
    else ""
  match r.capital_gain_allowance with
  | some _ =>
    match r.taxable_gain with
    | none => none
    | some tg => some (out2 ++ "Taxable capital gain: £" ++ reprStr tg ++
        "\n" ++ tail)
  | none =>
    some (out2 ++ "WARNING: Missing allowance for this tax year\n" ++ tail)

/-- `CapitalGainsCalculator._make_portfolio_entry` (calculator.py lines
478-497); `fetch` stands for `price_fetcher.get_current_market_price`. -/
def make_portfolio_entry (calc_unrealized : Bool) (fetch : String → Option ℚ)
    (symbol : String) (quantity amount : ℚ) : PortfolioEntry :=
  let unrealized_gains :=
    if calc_unrealized then
      match (if 0 < quantity then fetch symbol else some 0) with
      | none => none
      | some current_price => some (current_price * quantity - amount)
    else none
  ⟨symbol, quantity, amount, unrealized_gains⟩

/-- The in-tax-year aggregates accumulated by `calculate_capital_gain`
(calculator.py lines 377-382), with the calculation log flattened to a list
of (date, label, entries) triples in insertion order. -/
structure Aggregates where
  disposal_count : ℕ
  disposal_proceeds : ℚ
  allowable_costs : ℚ
  capital_gain : ℚ
  capital_loss : ℚ
  calculation_log : List (ℤ × String × List CalculationEntry)

/-- Sum of `entry.quantity` over a disposal's calculation entries. -/
def sum_quantity (l : List CalculationEntry) : ℚ :=
  (l.map (fun e => e.quantity)).sum

/-- Sum of `entry.amount` over a disposal's calculation entries. -/
def sum_amount (l : List CalculationEntry) : ℚ :=
  (l.map (fun e => e.amount)).sum

/-- Sum of `entry.gain` over a disposal's calculation entries (disposal
entries always carry a gain; the `getD 0` is never exercised on them). -/
def sum_gain (l : List CalculationEntry) : ℚ :=
  (l.map (fun e => e.gain.getD 0)).sum

/-- The in-tax-year block of the disposal loop of `calculate_capital_gain`
(calculator.py lines 411-458): aggregation, the reconciliation assertions
(modelled as `none` on failure) and the log updates for one disposal. -/
def aggregateSell (disposal_list : TxLog) (tax_year_start date_index : ℤ)
    (agg : Aggregates) (symbol : String) (rec : SellRecord) :
    Option Aggregates :=
  if tax_year_start ≤ date_index then
    match disposal_list date_index symbol with
    | none => none
    | some disposal =>
      if ¬ (disposal.quantity = sum_quantity rec.entries) then none
      else if ¬ (round_decimal disposal.amount 10 =
          round_decimal (sum_amount rec.entries) 10) then none
      else if ¬ (rec.chargeable_gain =
          round_decimal (sum_gain rec.entries) 2) then none
      else
        let agg2 := { agg with
          disposal_count := agg.disposal_count + 1
          disposal_proceeds := agg.disposal_proceeds + disposal.amount
          allowable_costs := agg.allowable_costs +
            (disposal.amount - rec.chargeable_gain)
          calculation_log := agg.calculation_log ++
            [(date_index, "sell$" ++ symbol, rec.entries)] }
        let agg3 :=
          if 0 < rec.chargeable_gain then
            { agg2 with capital_gain := agg2.capital_gain + rec.chargeable_gain }
          else
            { agg2 with capital_loss := agg2.capital_loss + rec.chargeable_gain }
        match rec.spin_off_entry with
        | none => some agg3
        | some e =>
          match e.spin_off with
          | none => none
          | some so =>
            some { agg3 with calculation_log := agg3.calculation_log ++
              [(so.date, "spin-off$" ++ so.source, [e])] }
  else some agg

/-- One date of the main loop of `calculate_capital_gain` (calculator.py
lines 385-458).  In the source the aggregation of a disposal happens right
after processing it; since the aggregation reads only that disposal's results
and the (immutable) disposal log, aggregating all of the day's disposals
after the day's state updates is observably identical. -/
def processDateFull (acquisition_list disposal_list : TxLog)
    (acq_syms disp_syms : ℤ → List String) (tax_year_start : ℤ)
    (date_index : ℤ) (p : CalcState × Aggregates) :
    Option (CalcState × Aggregates) :=
  match processDayAcqs acquisition_list date_index (acq_syms date_index) p.1 with
  | none => none
  | some (st1, buys) =>
    let agg1 :=
      if tax_year_start ≤ date_index then
        { p.2 with calculation_log := p.2.calculation_log ++
            buys.map (fun q => (date_index, "buy$" ++ q.1, q.2)) }
      else p.2
    match processDayDisps acquisition_list disposal_list date_index
        (disp_syms date_index) st1 with
    | none => none
    | some (st2, sells) =>
      match sells.foldlM
          (fun a q => aggregateSell disposal_list tax_year_start date_index
            a q.1 q.2) agg1 with
      | none => none
      | some agg2 => some (st2, agg2)

/-- The run of dates `begin_index .. tax_year_end` the main loop walks. -/
def datesFromTo (a b : ℤ) : List ℤ :=
  (List.range (b - a + 1).toNat).map (fun i => a + i)

/-- `CapitalGainsCalculator.calculate_capital_gain` (calculator.py lines
371-476).  `allowances` is the `CAPITAL_GAIN_ALLOWANCES` table (the module
`cgt_calc/const.py` holding it is not among the sources, so the table is a
parameter; per spec §4.2 missing years must be reported as unknown);
`tax_year_start`, `tax_year_end` and `begin_index` stand for the values of
`get_tax_year_start`, `get_tax_year_end` and `INTERNAL_START_DATE`;
`acq_syms` / `disp_syms` give each date's dict key (insertion) order and
`portfolio_keys` the final portfolio's key order; `spin_offs0` is
`hmrc_transactions.spin_offs` after the first pass. -/
def calculate_capital_gain (allowances : ℤ → Option ℚ) (tax_year : ℤ)
    (tax_year_start tax_year_end begin_index : ℤ)
    (calc_unrealized : Bool) (fetch : String → Option ℚ)
    (acquisition_list disposal_list : TxLog)
    (acq_syms disp_syms : ℤ → List String)
    (portfolio_keys : List String)
    (spin_offs0 : List (ℤ × List SpinOff)) : Option CapitalGainsReport :=
  let st0 : CalcState := ⟨fun _ => {}, fun _ _ => none, spin_offs0⟩
  let agg0 : Aggregates := ⟨0, 0, 0, 0, 0, []⟩
  match (datesFromTo begin_index tax_year_end).foldlM
      (fun p d => processDateFull acquisition_list disposal_list acq_syms
        disp_syms tax_year_start d p) (st0, agg0) with
  | none => none
  | some (stF, agg) =>
    let allowance := allowances tax_year
    some { tax_year := tax_year
           portfolio := portfolio_keys.map (fun s =>
             make_portfolio_entry calc_unrealized fetch s
               (stF.portfolio s).quantity (stF.portfolio s).amount)
           disposal_count := agg.disposal_count
           disposal_proceeds := round_decimal agg.disposal_proceeds 2
           allowable_costs := round_decimal agg.allowable_costs 2
           capital_gain := round_decimal agg.capital_gain 2
           capital_loss := round_decimal agg.capital_loss 2
           capital_gain_allowance := allowance
           calculation_log := agg.calculation_log
           show_unrealized_gains := calc_unrealized }

/-! ## Claim C10 -/

/-- C10: for every `CapitalGainsReport`, `taxable_gain` requires the
allowance to be present (it fails — `none` — exactly when
`capital_gain_allowance` is absent) and otherwise returns
`max 0 (capital_gain + capital_loss − allowance)`; the taxable gain it
reports is never negative. -/
theorem C10_taxable_gain_shape (r : CapitalGainsReport) :
    r.taxable_gain = r.capital_gain_allowance.map
      (fun a => max 0 (r.capital_gain + r.capital_loss - a)) ∧
    ∀ g ∈ r.taxable_gain, 0 ≤ g := by
  unfold CapitalGainsReport.taxable_gain CapitalGainsReport.total_gain
  cases r.capital_gain_allowance with
  | none => simp
  | some a => simp [le_max_left]

/-! ## Claim C2 -/

/-- Pool for the C2 scenario: 100 units of "A" at total cost 1000. -/
def portfolioC2 : String → Position :=
  fun s => if s = "A" then ⟨100, 1000⟩ else {}

/-- Engine state for the C2 scenario. -/
def stateC2 : CalcState := ⟨portfolioC2, fun _ _ => none, []⟩

/-- Disposal log for the C2 scenario: sell 40 units of "A" for 500 on day 0. -/
def disposal_listC2 : TxLog :=
  fun d s => if d = 0 ∧ s = "A" then some ⟨40, 500, 0⟩ else none

/-- C2: with the Section 104 pool holding 100 units at total cost 1000 and a
disposal of 40 units with proceeds 500 reaching the Section 104 tier (no
same-day or bed-and-breakfast matches), the allowable cost is
1000 × 40 / 100 = 400, the gain is 100, and the pool afterwards holds 60
units at cost 600. -/
theorem C2_section_104_averaging :
    (process_disposal (fun _ _ => none) disposal_listC2 "A" 0 stateC2).map
      (fun r => (r.chargeable_gain,
        r.entries.map (fun e =>
          (e.rule_type, e.quantity, e.allowable_cost, e.gain)),
        (r.state.portfolio "A").quantity, (r.state.portfolio "A").amount)) =
    some (100, [(RuleType.SECTION_104, 40, 400, some 100)], 60, 600) := by
  norm_num [process_disposal, disposal_listC2, stateC2, portfolioC2,
    applySpinOffs, same_day_tier, section_104_tier, round_decimal,
    round_half_up, updatePos, BED_AND_BREAKFAST_DAYS, List.range,
    List.range.loop, List.foldlM, bnb_step]

/-! ## Claim C6 -/

/-- C6 (amended): for every spin-off transaction, the cost proportion
retained by the source equals `src_mv / (src_mv + dst_mv)` (market values
from closing prices at the spin-off date), the destination's recorded
initial acquisition cost equals `(1 − proportion) × source pool cost`
ROUNDED TO 2 DECIMAL PLACES, and the destination's unit price is the
UNROUNDED cost divided by the quantity received. -/
theorem C6_spin_off_cost_split (ticker symbol : String)
    (dst_price src_price : ℚ) (portfolio : String → Position) (quantity : ℚ)
    (date : ℤ) (queue : List (ℤ × List SpinOff)) :
    handle_spin_off ticker dst_price src_price portfolio symbol quantity date
      queue =
    ((((1 - (portfolio ticker).quantity * src_price /
          (quantity * dst_price + (portfolio ticker).quantity * src_price)) *
        (portfolio ticker).amount) / quantity,
      round_decimal
        ((1 - (portfolio ticker).quantity * src_price /
            (quantity * dst_price + (portfolio ticker).quantity * src_price)) *
          (portfolio ticker).amount) 2),
     appendSpinOff queue date
       ⟨(portfolio ticker).quantity * src_price /
          (quantity * dst_price + (portfolio ticker).quantity * src_price),
        ticker, symbol, date⟩) := by
  rfl

/-- C6 counterexample: the claim's statement that the destination's initial
acquisition cost EQUALS `(1 − proportion) × source pool cost` fails whenever
that product needs more than 2 decimal places: with source pool 1 unit at
cost 1, source price 2, destination price 1 and 1 share received, the
proportion is 2/3, the exact cost is 1/3, but the recorded cost is its
2-decimal rounding 0.33. -/
theorem C6_counterexample :
    (handle_spin_off "M" 1 2 (fun s => if s = "M" then ⟨1, 1⟩ else {}) "S" 1 0
      []).1.2 = 33 / 100 ∧
    (1 - (2 : ℚ) / 3) * 1 = 1 / 3 ∧
    (33 : ℚ) / 100 ≠ 1 / 3 := by
  norm_num [handle_spin_off, round_decimal, round_half_up]

/-! ## Claim C7 -/

/-- C7 (amended): a disposal given to the first-pass ledger builder fails if
and only if a required field is missing (symbol, quantity, price or amount),
or the quantity is non-positive, or the symbol is not currently held, or the
quantity exceeds the held quantity, or the computed amount
`quantity × price − fees` diverges from the supplied amount by 0.10 currency
units OR MORE; otherwise the disposal is recorded and the running portfolio
is decremented (the entry being dropped when it reaches zero). -/
theorem C7_add_disposal_validation (to_gbp : ℚ → BrokerTransaction → ℚ)
    (st : LedgerState) (t : BrokerTransaction) :
    ((∃ st2, add_disposal to_gbp st t = .ok st2) ↔
      ∃ s q p a held, t.symbol = some s ∧ t.quantity = some q ∧
        t.price = some p ∧ t.amount = some a ∧ st.portfolio s = some held ∧
        0 < q ∧ q ≤ held.quantity ∧ |a - (q * p - t.fees)| < 1 / 10) ∧
    (∀ st2, add_disposal to_gbp st t = .ok st2 →
      ∀ s q a held, t.symbol = some s → t.quantity = some q →
        t.amount = some a → st.portfolio s = some held →
        (st2.portfolio s = if held.quantity - q = 0 then none
          else some (held - Position.mk q a)) ∧
        st2.disposal_list = add_to_list st.disposal_list t.date s q
          (to_gbp a t) (to_gbp t.fees t)) := by
  obtain ⟨date, sym, qty, price, fees, amt⟩ := t
  cases sym with
  | none => simp [add_disposal]
  | some s =>
    cases hheld : st.portfolio s with
    | none => simp [add_disposal, hheld]
    | some held =>
      cases qty with
      | none => simp [add_disposal, hheld]
      | some q =>
        by_cases hq0 : q ≤ 0
        · constructor
          · simp only [add_disposal, hheld, if_pos hq0]
            constructor
            · rintro ⟨st2, h⟩
              exact absurd h (by simp)
            · rintro ⟨s2, q2, p2, a2, held2, hs2, hq2, -, -, hh2, h1, -, -⟩
              simp only [Option.some.injEq] at hs2 hq2
              subst hs2
              subst hq2
              rw [hheld] at hh2
              linarith
          · intro st2 h
            simp only [add_disposal, hheld, if_pos hq0] at h
            exact absurd h (by simp)
        · by_cases hlt : held.quantity < q
          · constructor
            · simp only [add_disposal, hheld, if_neg hq0, if_pos hlt]
              constructor
              · rintro ⟨st2, h⟩
                exact absurd h (by simp)
              · rintro ⟨s2, q2, p2, a2, held2, hs2, hq2, -, -, hh2, -, h2, -⟩
                simp only [Option.some.injEq] at hs2 hq2
                subst hs2
                subst hq2
                rw [hheld] at hh2
                simp only [Option.some.injEq] at hh2
                subst hh2
                linarith
            · intro st2 h
              simp only [add_disposal, hheld, if_neg hq0, if_pos hlt] at h
              exact absurd h (by simp)
          · cases amt with
            | none =>
              constructor
              · simp only [add_disposal, hheld, if_neg hq0, if_neg hlt]
                constructor
                · rintro ⟨st2, h⟩
                  exact absurd h (by simp)
                · rintro ⟨s2, q2, p2, a2, held2, -, -, -, ha2, -⟩
                  exact absurd ha2 (by simp)
              · intro st2 h
                simp only [add_disposal, hheld, if_neg hq0, if_neg hlt] at h
                exact absurd h (by simp)
            | some a =>
              cases price with
              | none =>
                constructor
                · simp only [add_disposal, hheld, if_neg hq0, if_neg hlt]
                  constructor
                  · rintro ⟨st2, h⟩
                    exact absurd h (by simp)
                  · rintro ⟨s2, q2, p2, a2, held2, -, -, hp2, -⟩
                    exact absurd hp2 (by simp)
                · intro st2 h
                  simp only [add_disposal, hheld, if_neg hq0, if_neg hlt] at h
                  exact absurd h (by simp)
              | some p =>
                by_cases happ : approx_equal a (q * p - fees)
                · constructor
                  · simp only [add_disposal, hheld, if_neg hq0, if_neg hlt,
                      if_neg (not_not_intro happ)]
                    constructor
                    · rintro -
                      refine ⟨s, q, p, a, held, rfl, rfl, rfl, rfl, hheld,
                        not_le.mp hq0, not_lt.mp hlt, ?_⟩
                      simpa [approx_equal] using happ
                    · rintro -
                      exact ⟨_, rfl⟩
                  · intro st2 h s2 q2 a2 held2 hs2 hq2 ha2 hh2
                    simp only [Option.some.injEq] at hs2 hq2 ha2
                    subst hs2
                    subst hq2
                    subst ha2
                    rw [hheld] at hh2
                    simp only [Option.some.injEq] at hh2
                    subst hh2
                    simp only [add_disposal, hheld, if_neg hq0, if_neg hlt,
                      if_neg (not_not_intro happ), Except.ok.injEq] at h
                    subst h
                    refine ⟨?_, rfl⟩
                    simp only [updatePos, if_pos rfl]
                    rfl
                · constructor
                  · simp only [add_disposal, hheld, if_neg hq0, if_neg hlt,
                      if_pos happ]
                    constructor
                    · rintro ⟨st2, h⟩
                      exact absurd h (by simp)
                    · rintro ⟨s2, q2, p2, a2, held2, hs2, hq2, hp2, ha2, hh2,
                        -, -, h3⟩
                      simp only [Option.some.injEq] at hs2 hq2 hp2 ha2
                      subst hs2
                      subst hq2
                      subst hp2
                      subst ha2
                      rw [hheld] at hh2
                      simp only [Option.some.injEq] at hh2
                      subst hh2
                      exact (happ (by simpa [approx_equal] using h3)).elim
                  · intro st2 h
                    simp only [add_disposal, hheld, if_neg hq0, if_neg hlt,
                      if_pos happ] at h
                    exact absurd h (by simp)

/-- Ledger state for the C7 counterexample: 10 units of "A" at cost 100 are
held. -/
def stC7 : LedgerState :=
  ⟨fun s => if s = "A" then some ⟨10, 100⟩ else none, fun _ _ => none⟩

/-- Transaction for the C7 counterexample: a disposal of quantity −1. -/
def tC7 : BrokerTransaction := ⟨0, some "A", some (-1), some 1, 0, some (-1)⟩

/-- C7 counterexample: the claim's "if and only if" fails.  The disposal
below is rejected (`QuantityNotPositiveError`) although none of the claim's
three failure conditions holds: the symbol is held, the quantity (−1) does
not exceed the held quantity (10), and the computed amount matches the
supplied amount exactly. -/
theorem C7_counterexample :
    add_disposal (fun a _ => a) stC7 tC7 =
      .error LedgerError.QuantityNotPositiveError ∧
    stC7.portfolio "A" = some ⟨10, 100⟩ ∧
    tC7.quantity = some (-1) ∧ ((-1 : ℚ) ≤ 10) ∧
    |(-1 : ℚ) - ((-1) * 1 - tC7.fees)| < 1 / 10 := by
  refine ⟨?_, by norm_num [stC7], rfl, by norm_num, by norm_num [tC7]⟩
  norm_num [add_disposal, stC7, tC7]

/-! ## Claim C8 -/

/-- Rendering a report with no allowance inserts the warning line instead of
calling `taxable_gain` (model.py lines 266-269). -/
theorem render_of_allowance_none (r : CapitalGainsReport)
    (h : r.capital_gain_allowance = none) :
    ∃ pre post, r.render =
      some (pre ++ "WARNING: Missing allowance for this tax year\n" ++ post) := by
  unfold CapitalGainsReport.render
  rw [h]
  exact ⟨_, _, rfl⟩

/-- C8: for any tax year with no entry in the allowance table,
`calculate_capital_gain` still returns a complete report whose allowance
field is unavailable (`none`), and rendering that report reports the
allowance as unknown (the warning line) instead of failing. -/
theorem C8_allowance_gap (allowances : ℤ → Option ℚ) (tax_year : ℤ)
    (tax_year_start tax_year_end begin_index : ℤ) (calc_unrealized : Bool)
    (fetch : String → Option ℚ) (acquisition_list disposal_list : TxLog)
    (acq_syms disp_syms : ℤ → List String) (portfolio_keys : List String)
    (spin_offs0 : List (ℤ × List SpinOff)) (r : CapitalGainsReport)
    (hmiss : allowances tax_year = none)
    (hrun : calculate_capital_gain allowances tax_year tax_year_start
      tax_year_end begin_index calc_unrealized fetch acquisition_list
      disposal_list acq_syms disp_syms portfolio_keys spin_offs0 = some r) :
    r.capital_gain_allowance = none ∧
    ∃ pre post, r.render =
      some (pre ++ "WARNING: Missing allowance for this tax year\n" ++ post) := by
  unfold calculate_capital_gain at hrun
  dsimp only at hrun
  split at hrun
  · exact absurd hrun (by simp)
  · simp only [Option.some.injEq] at hrun
    subst hrun
    refine ⟨hmiss, render_of_allowance_none _ hmiss⟩

/-- Empty transaction log, for concrete witnesses. -/
def emptyTxLog : TxLog := fun _ _ => none

/-- The report the C8 witness run produces. -/
def reportC8 : CapitalGainsReport :=
  { tax_year := 0, portfolio := [], disposal_count := 0, disposal_proceeds := 0,
    allowable_costs := 0, capital_gain := 0, capital_loss := 0,
    capital_gain_allowance := none, calculation_log := [],
    show_unrealized_gains := false }

/-- C8 witness: a concrete run over an empty ledger for a year with no
allowance entry. -/
theorem C8_allowance_gap_witness :
    reportC8.capital_gain_allowance = none ∧
    ∃ pre post, reportC8.render =
      some (pre ++ "WARNING: Missing allowance for this tax year\n" ++ post) := by
  have hrun : calculate_capital_gain (fun _ => none) 0 0 0 0 false
      (fun _ => none) emptyTxLog emptyTxLog (fun _ => []) (fun _ => []) [] [] =
      some reportC8 := by
    norm_num [calculate_capital_gain, datesFromTo, processDateFull,
      processDayAcqs, processDayDisps, List.foldlM, List.range, List.range.loop,
      reportC8, round_decimal, round_half_up, emptyTxLog]
  exact C8_allowance_gap _ _ _ _ _ _ _ _ _ _ _ _ _ _ rfl hrun

/-! ## Claim C5 -/

/-- First spin-off record of the C5 failing input (source "A", date 0). -/
def spinOffB : SpinOff := ⟨1 / 2, "A", "B", 0⟩

/-- Second spin-off record of the C5 failing input (same source, same date). -/
def spinOffC : SpinOff := ⟨1 / 2, "A", "C", 0⟩

/-- C5 state: 10 units of "A" at pool cost 1600, two spin-offs queued for
date 0. -/
def stateC5 : CalcState :=
  ⟨fun s => if s = "A" then ⟨10, 1600⟩ else {}, fun _ _ => none,
    [(0, [spinOffB, spinOffC])]⟩

/-- C5 disposals: sell 1 unit of "A" for 10 on each of dates 0 and 1. -/
def disposal_listC5 : TxLog := fun d s =>
  if (d = 0 ∨ d = 1) ∧ s = "A" then some ⟨1, 10, 0⟩ else none

/-- C5 (code bug, evaluated at the failing input): with TWO spin-off records
queued for the same date, the first disposal applies both to the pool
(1600 → 400 before matching, pool cost 360 after it) but leaves the second
record queued — `spin_offs[date] = spin_offs[1:]` is re-run against the list
bound at loop entry, so only the first element is ever removed — and only the
second record's SPIN_OFF entry survives in `spin_off_entry`.  The next
disposal then applies the second record AGAIN (360 → 180 before matching,
final pool cost 160 instead of 320). -/
theorem C5_spin_off_double_application :
    ((process_disposal emptyTxLog disposal_listC5 "A" 0 stateC5).map
      (fun r => (r.state.spin_offs, (r.state.portfolio "A").quantity,
        (r.state.portfolio "A").amount,
        r.spin_off_entry.map (fun e => e.spin_off)))
      = some ([(0, [spinOffC])], 9, 360, some (some spinOffC))) ∧
    (((process_disposal emptyTxLog disposal_listC5 "A" 0 stateC5).bind
        (fun r1 => process_disposal emptyTxLog disposal_listC5 "A" 1
          r1.state)).map
      (fun r => (r.state.spin_offs, (r.state.portfolio "A").quantity,
        (r.state.portfolio "A").amount))
      = some ([(0, ([] : List SpinOff))], 8, 160)) := by
  constructor <;>
    norm_num [process_disposal, disposal_listC5, stateC5, spinOffB, spinOffC,
      applySpinOffs, applySpinOffStep, same_day_tier, section_104_tier,
      round_decimal, round_half_up, updatePos, emptyTxLog,
      BED_AND_BREAKFAST_DAYS, List.range, List.range.loop, List.foldlM,
      List.foldl, bnb_step]

/-! ## Claim C4 -/

/-- C4 disposal log: sell 10 units of "X" for 150 on day 0. -/
def disposal_listC4 : TxLog := fun d s =>
  if d = 0 ∧ s = "X" then some ⟨10, 150, 0⟩ else none

/-- C4 acquisition log: buy 10 units of "X" for 100 on day 5. -/
def acquisition_listC4 : TxLog := fun d s =>
  if d = 5 ∧ s = "X" then some ⟨10, 100, 0⟩ else none

/-- C4 counterexample: with the pool EMPTY at the disposal date, as the claim
stipulates, the engine produces no calculation entries at all: it fails the
`disposal_quantity <= current_quantity` assertion (calculator.py line 183)
before reaching any matching tier. -/
theorem C4_counterexample :
    process_disposal acquisition_listC4 disposal_listC4 "X" 0
      ⟨fun _ => {}, fun _ _ => none, []⟩ = none := by
  norm_num [process_disposal, disposal_listC4, acquisition_listC4,
    applySpinOffs]

/-- C4 state for the amended claim: the pool at day 0 holds the 10 units
being sold (at cost 80). -/
def stateC4 : CalcState :=
  ⟨fun s => if s = "X" then ⟨10, 80⟩ else {}, fun _ _ => none, []⟩

/-- C4 (amended): a disposal on day 0 of 10 units of a symbol whose pool
holds those 10 units, with an acquisition of 10 units on day 5 (within the
30-day window), produces exactly one BED_AND_BREAKFAST calculation entry at
disposal time referencing day 5; and when day 5 is processed the acquisition
is recorded as a single BED_AND_BREAKFAST entry of quantity 10 whose
allowable cost is the acquisition's cost, with no residual SECTION_104 entry
(10 − 10 = 0). -/
theorem C4_bed_and_breakfast_trigger :
    ((process_disposal acquisition_listC4 disposal_listC4 "X" 0 stateC4).map
      (fun r => (r.entries.map (fun e => (e.rule_type, e.quantity,
          e.bed_and_breakfast_date_index, e.amount, e.allowable_cost, e.gain)),
        r.chargeable_gain))
      = some ([(RuleType.BED_AND_BREAKFAST, 10, some 5, 150, 100, some 50)],
          50)) ∧
    (((process_disposal acquisition_listC4 disposal_listC4 "X" 0 stateC4).bind
        (fun r1 => process_acquisition acquisition_listC4 "X" 5 r1.state)).map
      (fun r => (r.entries.map (fun e =>
          (e.rule_type, e.quantity, e.allowable_cost, e.amount)),
        (r.state.portfolio "X").quantity, (r.state.portfolio "X").amount))
      = some ([(RuleType.BED_AND_BREAKFAST, 10, 100, -80)], 10, 80)) := by
  constructor <;>
    norm_num [process_disposal, process_acquisition, disposal_listC4,
      acquisition_listC4, stateC4, applySpinOffs, same_day_tier,
      section_104_tier, round_decimal, round_half_up, updatePos, add_to_list,
      has_key, BED_AND_BREAKFAST_DAYS, List.range, List.range.loop,
      List.foldlM, bnb_step]

/-! ## Helper lemmas about the spin-off scan and rounding -/

@[simp] theorem round_decimal_zero (dgts : ℕ) : round_decimal 0 dgts = 0 := by
  norm_num [round_decimal, round_half_up]

/-- One spin-off application leaves every symbol other than its source
untouched. -/
theorem applySpinOffStep_ne (pe : (String → Position) × Option CalculationEntry)
    (so : SpinOff) (s : String) (h : so.source ≠ s) :
    (applySpinOffStep pe so).1 s = pe.1 s := by
  unfold applySpinOffStep updatePos
  exact if_neg (fun hh => h hh.symm)

/-- Folding spin-off applications whose sources avoid `s` leaves `s`
untouched. -/
theorem applySpinOffList_ne (l : List SpinOff) (s : String)
    (h : ∀ so ∈ l, so.source ≠ s) :
    ∀ pe, (l.foldl applySpinOffStep pe).1 s = pe.1 s := by
  induction l with
  | nil => intro pe; rfl
  | cons hd tl ih =>
    intro pe
    rw [List.foldl_cons, ih (fun so hso => h so (List.mem_cons_of_mem _ hso))]
    exact applySpinOffStep_ne pe hd s (h hd (List.mem_cons_self _ _))

/-- The spin-off scan leaves every symbol that is not the source of a queued
spin-off untouched in the portfolio. -/
theorem applySpinOffs_portfolio_ne (d : ℤ) (queue : List (ℤ × List SpinOff))
    (s : String) (h : ∀ p ∈ queue, ∀ so ∈ p.2, so.source ≠ s) :
    ∀ port ent, (applySpinOffs d queue port ent).2.1 s = port s := by
  induction queue with
  | nil => intro port ent; rfl
  | cons hd tl ih =>
    intro port ent
    obtain ⟨dd, l⟩ := hd
    unfold applySpinOffs
    dsimp only
    split
    · exact ih (fun p hp => h p (List.mem_cons_of_mem _ hp)) port ent
    · rw [ih (fun p hp => h p (List.mem_cons_of_mem _ hp))]
      exact applySpinOffList_ne l s
        (fun so hso => h (dd, l) (List.mem_cons_self _ _) so hso) _

/-- A successful acquisition with no pending bed-and-breakfast claim for its
date/symbol adds the full quantity and amount to the pool and changes nothing
else in the engine state. -/
theorem process_acquisition_state_no_bnb (A : TxLog) (s : String) (d : ℤ)
    (st : CalcState) (a : HmrcTransactionData) (r : AcqResult)
    (hacq : A d s = some a) (hbnb : st.bnb_list d s = none)
    (h : process_acquisition A s d st = some r) :
    r.state.portfolio = updatePos st.portfolio s
      (st.portfolio s + Position.mk a.quantity a.amount) ∧
    r.state.bnb_list = st.bnb_list ∧ r.state.spin_offs = st.spin_offs := by
  unfold process_acquisition at h
  rw [hacq] at h
  simp only [has_key, hbnb, Option.isSome_none, Bool.false_eq_true, and_false,
    if_false] at h
  split_ifs at h
  all_goals
    simp only [Option.some.injEq] at h
    subst h
    exact ⟨rfl, rfl, rfl⟩

/-! ## Claim C3 -/

/-- C3: for a symbol with exactly one acquisition and one disposal of equal
(positive) quantity on the same date — no bed-and-breakfast claim pending
against that date/symbol, no queued spin-off sourced at the symbol — when
the engine processes that date, the entire disposal quantity is matched under
the SAME_DAY rule (the disposal log holds exactly one SAME_DAY entry of the
full quantity) and the symbol's Section 104 pool (quantity and pooled cost)
is the same after the date as before it. -/
theorem C3_same_day_priority (acquisition_list disposal_list : TxLog)
    (s : String) (d : ℤ) (st : CalcState) (a dsp : HmrcTransactionData)
    (r : DayResult)
    (hacq : acquisition_list d s = some a)
    (hdisp : disposal_list d s = some dsp)
    (heq : a.quantity = dsp.quantity)
    (hpos : 0 < a.quantity)
    (hbnb : st.bnb_list d s = none)
    (hso : ∀ p ∈ st.spin_offs, ∀ so ∈ p.2, so.source ≠ s)
    (hrun : processDay acquisition_list disposal_list d [s] [s] st = some r) :
    r.state.portfolio s = st.portfolio s ∧
    ∃ rec, r.sells = [(s, rec)] ∧
      ∃ e, rec.entries = [e] ∧ e.rule_type = RuleType.SAME_DAY ∧
        e.quantity = dsp.quantity := by
  have hne : dsp.quantity ≠ 0 := ne_of_gt (heq ▸ hpos)
  -- split the day into its acquisition and disposal
  simp only [processDay, processDayAcqs, processDayDisps] at hrun
  rcases hA : process_acquisition acquisition_list s d st with _ | r1
  · rw [hA] at hrun
    exact absurd hrun (by simp)
  rw [hA] at hrun
  dsimp only at hrun
  rcases hD : process_disposal acquisition_list disposal_list s d r1.state
      with _ | r2
  · rw [hD] at hrun
    exact absurd hrun (by simp)
  rw [hD] at hrun
  simp only [Option.some.injEq] at hrun
  subst hrun
  obtain ⟨hport1, hbnb1, hso1⟩ :=
    process_acquisition_state_no_bnb _ _ _ _ _ _ hacq hbnb hA
  have hps : r1.state.portfolio s =
      Position.mk ((st.portfolio s).quantity + a.quantity)
        ((st.portfolio s).amount + a.amount) := by
    rw [hport1]
    simp [updatePos]
  -- analyze the disposal
  unfold process_disposal at hD
  rw [hdisp] at hD
  dsimp only at hD
  rw [if_neg hne] at hD
  rw [hso1] at hD
  rw [applySpinOffs_portfolio_ne d st.spin_offs s hso r1.state.portfolio none]
    at hD
  rw [hps] at hD
  dsimp only at hD
  split_ifs at hD with hle
  -- the same-day tier consumes everything
  unfold same_day_tier at hD
  rw [hacq] at hD
  dsimp only at hD
  rw [heq, min_self, if_pos (heq ▸ hpos)] at hD
  split_ifs at hD with hzero
  -- after the same-day tier nothing is left to match
  dsimp only at hD
  simp only [sub_self] at hD
  rw [if_neg (lt_irrefl 0)] at hD
  unfold section_104_tier at hD
  dsimp only at hD
  rw [if_neg (lt_irrefl 0)] at hD
  dsimp only at hD
  rw [if_neg (by simp : ¬¬round_decimal 0 23 = 0)] at hD
  simp only [Option.some.injEq] at hD
  subst hD
  refine ⟨?_, ⟨_, rfl, _, rfl, rfl, rfl⟩⟩
  dsimp only [updatePos]
  rw [if_pos rfl]
  rcases hSP : st.portfolio s with ⟨pq, pa⟩
  rw [hSP] at hps
  simp only [Position.mk.injEq]
  constructor
  · ring
  · have hq : dsp.quantity ≠ 0 := hne
    field_simp

/-- Acquisition log for the C3 witness: buy 10 "A" for 100 on day 0. -/
def acquisition_listC3 : TxLog :=
  fun d s => if d = 0 ∧ s = "A" then some ⟨10, 100, 0⟩ else none

/-- Disposal log for the C3 witness: sell 10 "A" for 130 on day 0. -/
def disposal_listC3 : TxLog :=
  fun d s => if d = 0 ∧ s = "A" then some ⟨10, 130, 0⟩ else none

/-- State for the C3 witness: 5 units of "A" at cost 50 already pooled. -/
def stateC3 : CalcState :=
  ⟨fun s => if s = "A" then ⟨5, 50⟩ else {}, fun _ _ => none, []⟩

/-- C3 witness: the same-day theorem applied at a concrete input. -/
theorem C3_same_day_priority_witness :
    ∃ r, processDay acquisition_listC3 disposal_listC3 0 ["A"] ["A"] stateC3 =
        some r ∧
      r.state.portfolio "A" = stateC3.portfolio "A" ∧
      ∃ rec, r.sells = [("A", rec)] ∧
        ∃ e, rec.entries = [e] ∧ e.rule_type = RuleType.SAME_DAY ∧
          e.quantity = (10 : ℚ) := by
  rcases hr : processDay acquisition_listC3 disposal_listC3 0 ["A"] ["A"]
      stateC3 with _ | r
  · exfalso
    have hs : (processDay acquisition_listC3 disposal_listC3 0 ["A"] ["A"]
        stateC3).isSome = true := by
      norm_num [processDay, processDayAcqs, processDayDisps,
        process_acquisition, process_disposal, acquisition_listC3,
        disposal_listC3, stateC3, applySpinOffs, same_day_tier,
        section_104_tier, round_decimal, round_half_up, updatePos, has_key,
        add_to_list, BED_AND_BREAKFAST_DAYS, List.range, List.range.loop,
        List.foldlM, bnb_step]
    rw [hr] at hs
    exact absurd hs (by simp)
  · refine ⟨r, rfl, ?_⟩
    have h := C3_same_day_priority acquisition_listC3 disposal_listC3 "A" 0
      stateC3 ⟨10, 100, 0⟩ ⟨10, 130, 0⟩ r (by norm_num [acquisition_listC3])
      (by norm_num [disposal_listC3]) rfl (by norm_num) rfl
      (by simp [stateC3]) hr
    exact h

/-! ## Claim C1 -/

@[simp] theorem sum_quantity_nil : sum_quantity [] = 0 := rfl

@[simp] theorem sum_quantity_append (l1 l2 : List CalculationEntry) :
    sum_quantity (l1 ++ l2) = sum_quantity l1 + sum_quantity l2 := by
  simp [sum_quantity]

@[simp] theorem sum_quantity_singleton (e : CalculationEntry) :
    sum_quantity [e] = e.quantity := by
  simp [sum_quantity]

@[simp] theorem sum_amount_nil : sum_amount [] = 0 := rfl

@[simp] theorem sum_amount_append (l1 l2 : List CalculationEntry) :
    sum_amount (l1 ++ l2) = sum_amount l1 + sum_amount l2 := by
  simp [sum_amount]

@[simp] theorem sum_amount_singleton (e : CalculationEntry) :
    sum_amount [e] = e.amount := by
  simp [sum_amount]

@[simp] theorem sum_gain_nil : sum_gain [] = 0 := rfl

@[simp] theorem sum_gain_append (l1 l2 : List CalculationEntry) :
    sum_gain (l1 ++ l2) = sum_gain l1 + sum_gain l2 := by
  simp [sum_gain]

@[simp] theorem sum_gain_singleton (e : CalculationEntry) :
    sum_gain [e] = e.gain.getD 0 := by
  simp [sum_gain]

/-- Invariant threaded through the disposal tiers: the entries emitted so far
plus what remains to match account exactly for the disposal's quantity,
proceeds and accumulated chargeable gain; the remaining proceeds are priced
at the disposal price `dp`; the remaining quantity is non-negative. -/
def TierInv (dp odq opa : ℚ) (s : TierState) : Prop :=
  sum_quantity s.entries + s.disposal_quantity = odq ∧
  sum_amount s.entries + s.proceeds_amount = opa ∧
  sum_gain s.entries = s.chargeable_gain ∧
  s.proceeds_amount = dp * s.disposal_quantity ∧
  0 ≤ s.disposal_quantity

/-- The same-day tier preserves the reconciliation invariant. -/
theorem same_day_tier_inv (A : TxLog) (s : String) (d : ℤ)
    (dp fees odq opa : ℚ) (st0 st1 : TierState)
    (h : same_day_tier A s d dp fees odq st0 = some st1)
    (inv : TierInv dp odq opa st0) : TierInv dp odq opa st1 := by
  obtain ⟨dq, pa, cq, ca, bl, g, es⟩ := st0
  obtain ⟨i1, i2, i3, i4, i5⟩ := inv
  dsimp only at i1 i2 i3 i4 i5
  unfold same_day_tier at h
  cases hA : A d s with
  | none =>
    rw [hA] at h
    cases h
    exact ⟨i1, i2, i3, i4, i5⟩
  | some acq =>
    rw [hA] at h
    dsimp only at h
    split_ifs at h with hav hzero
    all_goals try exact Option.noConfusion h
    all_goals
      simp only [Option.some.injEq] at h
      subst h
      try exact ⟨i1, i2, i3, i4, i5⟩
    refine ⟨?_, ?_, ?_, ?_, ?_⟩
    · simp only [sum_quantity_append, sum_quantity_singleton]
      linarith
    · simp only [sum_amount_append, sum_amount_singleton]
      linarith
    · simp only [sum_gain_append, sum_gain_singleton, Option.getD_some]
      rw [i3]
    · rw [i4]
      ring
    · simp only [sub_nonneg]
      exact min_le_left _ _

/-- One bed-and-breakfast iteration preserves the reconciliation invariant. -/
theorem bnb_step_inv (A D : TxLog) (s : String) (d : ℤ)
    (dp fees odq opa : ℚ) (st0 st1 : TierState) (i : ℕ)
    (h : bnb_step A D s d dp fees odq st0 i = some st1)
    (inv : TierInv dp odq opa st0) : TierInv dp odq opa st1 := by
  obtain ⟨dq, pa, cq, ca, bl, g, es⟩ := st0
  obtain ⟨i1, i2, i3, i4, i5⟩ := inv
  dsimp only at i1 i2 i3 i4 i5
  unfold bnb_step at h
  dsimp only at h
  cases hA : A (d + ((i : ℤ) + 1)) s with
  | none =>
    rw [hA] at h
    cases h
    exact ⟨i1, i2, i3, i4, i5⟩
  | some acq =>
    rw [hA] at h
    dsimp only at h
    split_ifs at h with h1 h2 h3 h4 h5 h6
    all_goals try exact Option.noConfusion h
    all_goals
      simp only [Option.some.injEq] at h
      subst h
      try exact ⟨i1, i2, i3, i4, i5⟩
    refine ⟨?_, ?_, ?_, ?_, ?_⟩
    · simp only [sum_quantity_append, sum_quantity_singleton]
      linarith
    · simp only [sum_amount_append, sum_amount_singleton]
      linarith
    · simp only [sum_gain_append, sum_gain_singleton, Option.getD_some]
      rw [i3]
    · rw [i4]
      ring
    · simp only [sub_nonneg]
      exact min_le_left _ _

/-- The bed-and-breakfast scan preserves the reconciliation invariant. -/
theorem bnb_fold_inv (A D : TxLog) (s : String) (d : ℤ)
    (dp fees odq opa : ℚ) (l : List ℕ) :
    ∀ st0 st1, l.foldlM (bnb_step A D s d dp fees odq) st0 = some st1 →
      TierInv dp odq opa st0 → TierInv dp odq opa st1 := by
  induction l with
  | nil =>
    intro st0 st1 h inv
    simp only [List.foldlM_nil] at h
    cases h
    exact inv
  | cons i tl ih =>
    intro st0 st1 h inv
    rw [List.foldlM_cons] at h
    cases hstep : bnb_step A D s d dp fees odq st0 i with
    | none =>
      rw [hstep] at h
      exact absurd h (by simp)
    | some smid =>
      rw [hstep] at h
      exact ih smid st1 (by simpa using h)
        (bnb_step_inv A D s d dp fees odq _ _ smid i hstep inv)

/-- After the Section 104 tier the emitted entries reconcile exactly with the
original disposal quantity, proceeds and accumulated gain. -/
theorem section_104_tier_final (fees odq opa dp : ℚ) (st2 st3 : TierState)
    (h : section_104_tier fees odq st2 = some st3)
    (inv : TierInv dp odq opa st2) :
    sum_quantity st3.entries = odq ∧ sum_amount st3.entries = opa ∧
    sum_gain st3.entries = st3.chargeable_gain := by
  obtain ⟨dq, pa, cq, ca, bl, g, es⟩ := st2
  obtain ⟨i1, i2, i3, i4, i5⟩ := inv
  dsimp only at i1 i2 i3 i4 i5
  unfold section_104_tier at h
  dsimp only at h
  split_ifs at h with h1 h2 h3
  all_goals try exact Option.noConfusion h
  all_goals
    simp only [Option.some.injEq] at h
    subst h
  · refine ⟨?_, ?_, ?_⟩
    · simp only [sum_quantity_append, sum_quantity_singleton]
      linarith
    · simp only [sum_amount_append, sum_amount_singleton]
      linarith
    · simp only [sum_gain_append, sum_gain_singleton, Option.getD_some]
      rw [i3]
  · have hdq : dq = 0 := le_antisymm (not_lt.mp h1) i5
    have hpa : pa = 0 := by rw [i4, hdq, mul_zero]
    refine ⟨?_, ?_, i3⟩
    · linarith
    · linarith

/-- C1: for every disposal the matching engine completes, the calculation
entries it emits reconcile exactly with the disposal: the entry quantities
sum to the disposal's quantity, the entry amounts sum to the disposal's GBP
proceeds (exactly, hence within any tolerance), and the sum of entry gains,
rounded to 2 decimal places, is the disposal's overall chargeable gain. -/
theorem C1_reconciliation (A D : TxLog) (s : String) (d : ℤ) (st : CalcState)
    (dsp : HmrcTransactionData) (r : DispResult)
    (hdisp : D d s = some dsp) (hq : 0 < dsp.quantity)
    (h : process_disposal A D s d st = some r) :
    sum_quantity r.entries = dsp.quantity ∧
    sum_amount r.entries = dsp.amount ∧
    round_decimal (sum_gain r.entries) 2 = r.chargeable_gain := by
  unfold process_disposal at h
  rw [hdisp] at h
  dsimp only at h
  rw [if_neg (ne_of_gt hq)] at h
  split_ifs at h with hle
  have inv0 : TierInv (dsp.amount / dsp.quantity) dsp.quantity dsp.amount
      ⟨dsp.quantity, dsp.amount,
        (st.portfolio s).quantity,
        ((applySpinOffs d st.spin_offs st.portfolio none).2.1 s).amount,
        st.bnb_list, 0, []⟩ := by
    refine ⟨by simp, by simp, by simp, ?_, le_of_lt hq⟩
    dsimp only
    field_simp
  revert h
  split
  · intro h
    exact absurd h (by simp)
  · rename_i s1 hsd
    have inv1 := same_day_tier_inv _ _ _ _ _ _ _ _ _ hsd inv0
    split
    · intro h
      exact absurd h (by simp)
    · rename_i s2 hbnb2
      have inv2 : TierInv (dsp.amount / dsp.quantity) dsp.quantity dsp.amount
          s2 := by
        by_cases hpos1 : 0 < s1.disposal_quantity
        · rw [if_pos hpos1] at hbnb2
          exact bnb_fold_inv _ _ _ _ _ _ _ _ _ _ _ hbnb2 inv1
        · rw [if_neg hpos1] at hbnb2
          cases hbnb2
          exact inv1
      split
      · intro h
        exact absurd h (by simp)
      · rename_i s3 hsec
        obtain ⟨f1, f2, f3⟩ :=
          section_104_tier_final _ _ _ _ _ _ hsec inv2
        intro h
        split_ifs at h
        simp only [Option.some.injEq] at h
        subst h
        exact ⟨f1, f2, by rw [f3]⟩

/-- C1 witness: the reconciliation theorem applied at a concrete disposal. -/
theorem C1_reconciliation_witness :
    ∃ r, process_disposal emptyTxLog disposal_listC2 "A" 0 stateC2 = some r ∧
      sum_quantity r.entries = 40 ∧ sum_amount r.entries = 500 ∧
      round_decimal (sum_gain r.entries) 2 = r.chargeable_gain := by
  rcases hr : process_disposal emptyTxLog disposal_listC2 "A" 0 stateC2
      with _ | r
  · exfalso
    have hs : (process_disposal emptyTxLog disposal_listC2 "A" 0
        stateC2).isSome = true := by
      norm_num [process_disposal, disposal_listC2, stateC2, portfolioC2,
        emptyTxLog, applySpinOffs, same_day_tier, section_104_tier,
        round_decimal, round_half_up, updatePos, BED_AND_BREAKFAST_DAYS,
        List.range, List.range.loop, List.foldlM, bnb_step]
    rw [hr] at hs
    exact absurd hs (by simp)
  · refine ⟨r, rfl, ?_⟩
    exact C1_reconciliation emptyTxLog disposal_listC2 "A" 0 stateC2
      ⟨40, 500, 0⟩ r (by norm_num [disposal_listC2]) (by norm_num) hr

/-! ## Claim C9 -/

@[simp] theorem updatePos_same (p : String → Position) (s : String)
    (v : Position) : updatePos p s v s = v := if_pos rfl

theorem updatePos_ne (p : String → Position) (s : String) (v : Position)
    (t : String) (h : t ≠ s) : updatePos p s v t = p t := if_neg h

theorem add_to_list_ne (l : TxLog) (d : ℤ) (s : String) (q a f : ℚ)
    (d2 : ℤ) (t : String) (h : t ≠ s) :
    add_to_list l d s q a f d2 t = l d2 t := by
  unfold add_to_list
  exact if_neg (fun hc => h hc.2)

/-- Agreement of two tier states on everything a single symbol's disposal
reads and writes: all scalar fields, the entries, and the symbol's slice of
the bed-and-breakfast claim list. -/
def TierAgree (sym : String) (u v : TierState) : Prop :=
  u.disposal_quantity = v.disposal_quantity ∧
  u.proceeds_amount = v.proceeds_amount ∧
  u.current_quantity = v.current_quantity ∧
  u.current_amount = v.current_amount ∧
  u.chargeable_gain = v.chargeable_gain ∧
  u.entries = v.entries ∧
  ∀ d2 : ℤ, u.bnb_list d2 sym = v.bnb_list d2 sym

/-- `TierAgree` lifted to optional results. -/
def OptionAgree (sym : String) : Option TierState → Option TierState → Prop
  | none, none => True
  | some u, some v => TierAgree sym u v
  | _, _ => False

/-- The same-day tier acts identically on states a symbol cannot tell
apart. -/
theorem same_day_tier_parallel (A : TxLog) (sym : String) (d : ℤ)
    (dp fees odq : ℚ) (u v : TierState) (hag : TierAgree sym u v) :
    OptionAgree sym (same_day_tier A sym d dp fees odq u)
      (same_day_tier A sym d dp fees odq v) := by
  obtain ⟨du, pu, cu, au, blu, gu, eu⟩ := u
  obtain ⟨dv, pv, cv, av, blv, gv, ev⟩ := v
  obtain ⟨h1, h2, h3, h4, h5, h6, hbl⟩ := hag
  dsimp only at h1 h2 h3 h4 h5 h6 hbl
  subst h1
  subst h2
  subst h3
  subst h4
  subst h5
  subst h6
  unfold same_day_tier
  cases hA : A d sym with
  | none => exact ⟨rfl, rfl, rfl, rfl, rfl, rfl, hbl⟩
  | some acq =>
    dsimp only
    split_ifs
    · exact trivial
    · exact ⟨rfl, rfl, rfl, rfl, rfl, rfl, hbl⟩
    · exact ⟨rfl, rfl, rfl, rfl, rfl, rfl, hbl⟩

/-- The Section 104 tier acts identically on states a symbol cannot tell
apart. -/
theorem section_104_tier_parallel (sym : String) (fees odq : ℚ)
    (u v : TierState) (hag : TierAgree sym u v) :
    OptionAgree sym (section_104_tier fees odq u)
      (section_104_tier fees odq v) := by
  obtain ⟨du, pu, cu, au, blu, gu, eu⟩ := u
  obtain ⟨dv, pv, cv, av, blv, gv, ev⟩ := v
  obtain ⟨h1, h2, h3, h4, h5, h6, hbl⟩ := hag
  dsimp only at h1 h2 h3 h4 h5 h6 hbl
  subst h1
  subst h2
  subst h3
  subst h4
  subst h5
  subst h6
  unfold section_104_tier
  dsimp only
  split_ifs
  · exact trivial
  · exact trivial
  · exact ⟨rfl, rfl, rfl, rfl, rfl, rfl, hbl⟩
  · exact ⟨rfl, rfl, rfl, rfl, rfl, rfl, hbl⟩

/-- A bed-and-breakfast iteration acts identically on states a symbol cannot
tell apart. -/
theorem bnb_step_parallel (A D : TxLog) (sym : String) (d : ℤ)
    (dp fees odq : ℚ) (u v : TierState) (i : ℕ) (hag : TierAgree sym u v) :
    OptionAgree sym (bnb_step A D sym d dp fees odq u i)
      (bnb_step A D sym d dp fees odq v i) := by
  obtain ⟨du, pu, cu, au, blu, gu, eu⟩ := u
  obtain ⟨dv, pv, cv, av, blv, gv, ev⟩ := v
  obtain ⟨h1, h2, h3, h4, h5, h6, hbl⟩ := hag
  dsimp only at h1 h2 h3 h4 h5 h6 hbl
  subst h1
  subst h2
  subst h3
  subst h4
  subst h5
  subst h6
  unfold bnb_step
  dsimp only
  cases hA : A (d + ((i : ℤ) + 1)) sym with
  | none => exact ⟨rfl, rfl, rfl, rfl, rfl, rfl, hbl⟩
  | some acq =>
    dsimp only
    simp only [hbl]
    split_ifs <;>
      first
        | exact trivial
        | exact ⟨rfl, rfl, rfl, rfl, rfl, rfl, hbl⟩
        | (refine ⟨rfl, rfl, rfl, rfl, rfl, rfl, ?_⟩
           intro d2
           dsimp only
           unfold add_to_list
           split_ifs with hc
           · simp [hbl]
           · exact hbl d2)

/-- The bed-and-breakfast scan acts identically on states a symbol cannot
tell apart. -/
theorem bnb_fold_parallel (A D : TxLog) (sym : String) (d : ℤ)
    (dp fees odq : ℚ) (l : List ℕ) :
    ∀ u v, TierAgree sym u v →
      OptionAgree sym (l.foldlM (bnb_step A D sym d dp fees odq) u)
        (l.foldlM (bnb_step A D sym d dp fees odq) v) := by
  induction l with
  | nil =>
    intro u v hag
    simpa [List.foldlM_nil, OptionAgree] using hag
  | cons i tl ih =>
    intro u v hag
    rw [List.foldlM_cons, List.foldlM_cons]
    have hstep := bnb_step_parallel A D sym d dp fees odq u v i hag
    cases hu : bnb_step A D sym d dp fees odq u i with
    | none =>
      rw [hu] at hstep
      cases hv : bnb_step A D sym d dp fees odq v i with
      | none => simp [OptionAgree]
      | some v1 =>
        rw [hv] at hstep
        exact absurd hstep (by simp [OptionAgree])
    | some u1 =>
      rw [hu] at hstep
      cases hv : bnb_step A D sym d dp fees odq v i with
      | none =>
        rw [hv] at hstep
        exact absurd hstep (by simp [OptionAgree])
      | some v1 =>
        rw [hv] at hstep
        simpa using ih u1 v1 hstep

/-- The same-day tier never writes the claim list. -/
theorem same_day_tier_bnb_eq (A : TxLog) (sym : String) (d : ℤ)
    (dp fees odq : ℚ) (u u1 : TierState)
    (h : same_day_tier A sym d dp fees odq u = some u1) :
    u1.bnb_list = u.bnb_list := by
  unfold same_day_tier at h
  cases hA : A d sym with
  | none =>
    rw [hA] at h
    cases h
    rfl
  | some acq =>
    rw [hA] at h
    dsimp only at h
    split_ifs at h
    all_goals try exact Option.noConfusion h
    all_goals
      simp only [Option.some.injEq] at h
      subst h
      rfl

/-- A bed-and-breakfast iteration only writes its own symbol's slice of the
claim list. -/
theorem bnb_step_bnb_frame (A D : TxLog) (sym : String) (d : ℤ)
    (dp fees odq : ℚ) (u u1 : TierState) (i : ℕ)
    (h : bnb_step A D sym d dp fees odq u i = some u1) :
    ∀ d2 t, t ≠ sym → u1.bnb_list d2 t = u.bnb_list d2 t := by
  unfold bnb_step at h
  dsimp only at h
  cases hA : A (d + ((i : ℤ) + 1)) sym with
  | none =>
    rw [hA] at h
    cases h
    intro d2 t ht
    rfl
  | some acq =>
    rw [hA] at h
    dsimp only at h
    split_ifs at h
    all_goals try exact Option.noConfusion h
    all_goals
      simp only [Option.some.injEq] at h
      subst h
      intro d2 t ht
      try rfl
    exact add_to_list_ne _ _ _ _ _ _ _ _ ht

/-- The bed-and-breakfast scan only writes its own symbol's slice of the
claim list. -/
theorem bnb_fold_bnb_frame (A D : TxLog) (sym : String) (d : ℤ)
    (dp fees odq : ℚ) (l : List ℕ) :
    ∀ u u1, l.foldlM (bnb_step A D sym d dp fees odq) u = some u1 →
      ∀ d2 t, t ≠ sym → u1.bnb_list d2 t = u.bnb_list d2 t := by
  induction l with
  | nil =>
    intro u u1 h d2 t ht
    simp only [List.foldlM_nil] at h
    cases h
    rfl
  | cons i tl ih =>
    intro u u1 h d2 t ht
    rw [List.foldlM_cons] at h
    cases hstep : bnb_step A D sym d dp fees odq u i with
    | none =>
      rw [hstep] at h
      exact absurd h (by simp)
    | some umid =>
      rw [hstep] at h
      rw [ih umid u1 (by simpa using h) d2 t ht]
      exact bnb_step_bnb_frame A D sym d dp fees odq u umid i hstep d2 t ht

/-- The Section 104 tier never writes the claim list. -/
theorem section_104_tier_bnb_eq (fees odq : ℚ) (u u1 : TierState)
    (h : section_104_tier fees odq u = some u1) :
    u1.bnb_list = u.bnb_list := by
  unfold section_104_tier at h
  dsimp only at h
  split_ifs at h
  all_goals try exact Option.noConfusion h
  all_goals
    simp only [Option.some.injEq] at h
    subst h
    rfl

/-- With no queued spin-offs, a disposal only changes its own symbol's
position and claim-list slice, and records no spin-off entry. -/
theorem process_disposal_frame (A D : TxLog) (s : String) (d : ℤ)
    (st : CalcState) (r : DispResult) (hso : st.spin_offs = [])
    (h : process_disposal A D s d st = some r) :
    (∀ t, t ≠ s → r.state.portfolio t = st.portfolio t) ∧
    (∀ d2 t, t ≠ s → r.state.bnb_list d2 t = st.bnb_list d2 t) ∧
    r.state.spin_offs = [] ∧ r.spin_off_entry = none := by
  unfold process_disposal at h
  cases hD : D d s with
  | none =>
    rw [hD] at h
    exact absurd h (by simp)
  | some dsp =>
    rw [hD] at h
    dsimp only at h
    rw [hso] at h
    simp only [applySpinOffs] at h
    try dsimp only at h
    split_ifs at h
    all_goals try exact Option.noConfusion h
    revert h
    split
    · intro h
      exact absurd h (by simp)
    · rename_i s1 hsd
      split
      · intro h
        exact absurd h (by simp)
      · rename_i s2 hbnb2
        split
        · intro h
          exact absurd h (by simp)
        · rename_i s3 hsec
          intro h
          split_ifs at h
          simp only [Option.some.injEq] at h
          subst h
          have hb1 := same_day_tier_bnb_eq _ _ _ _ _ _ _ _ hsd
          have hb2 : ∀ d2 t, t ≠ s → s2.bnb_list d2 t = s1.bnb_list d2 t := by
            by_cases hp1 : 0 < s1.disposal_quantity
            · rw [if_pos hp1] at hbnb2
              exact fun d2 t ht =>
                bnb_fold_bnb_frame _ _ _ _ _ _ _ _ _ _ hbnb2 d2 t ht
            · rw [if_neg hp1] at hbnb2
              cases hbnb2
              intro d2 t ht
              rfl
          have hb3 := section_104_tier_bnb_eq _ _ _ _ hsec
          refine ⟨?_, ?_, rfl, rfl⟩
          · intro t ht
            exact updatePos_ne _ _ _ _ ht
          · intro d2 t ht
            show s3.bnb_list d2 t = st.bnb_list d2 t
            rw [hb3, hb2 d2 t ht, hb1]

/-- Unpack an `OptionAgree` into its two possible shapes. -/
theorem OptionAgree_cases {sym : String} {o1 o2 : Option TierState}
    (h : OptionAgree sym o1 o2) :
    (o1 = none ∧ o2 = none) ∨
      ∃ u v, o1 = some u ∧ o2 = some v ∧ TierAgree sym u v := by
  cases o1 with
  | none =>
    cases o2 with
    | none => exact Or.inl ⟨rfl, rfl⟩
    | some v => exact h.elim
  | some u =>
    cases o2 with
    | none => exact h.elim
    | some v => exact Or.inr ⟨u, v, rfl, rfl, h⟩

/-- Agreement of two optional disposal results on everything observable for
one symbol. -/
def DispAgree (s : String) : Option DispResult → Option DispResult → Prop
  | none, none => True
  | some r1, some r2 =>
      r1.chargeable_gain = r2.chargeable_gain ∧ r1.entries = r2.entries ∧
      r1.spin_off_entry = r2.spin_off_entry ∧
      r1.state.portfolio s = r2.state.portfolio s ∧
      ∀ d2, r1.state.bnb_list d2 s = r2.state.bnb_list d2 s
  | _, _ => False

/-- With no queued spin-offs, a disposal acts identically on engine states
its symbol cannot tell apart (same position, same claim slice). -/
theorem process_disposal_parallel (A D : TxLog) (s : String) (d : ℤ)
    (st1 st2 : CalcState)
    (hso1 : st1.spin_offs = []) (hso2 : st2.spin_offs = [])
    (hp : st1.portfolio s = st2.portfolio s)
    (hb : ∀ d2, st1.bnb_list d2 s = st2.bnb_list d2 s) :
    DispAgree s (process_disposal A D s d st1)
      (process_disposal A D s d st2) := by
  unfold process_disposal
  cases hD : D d s with
  | none => exact trivial
  | some dsp =>
    dsimp only
    rw [hso1, hso2]
    simp only [applySpinOffs]
    try dsimp only
    rw [hp]
    by_cases hq : dsp.quantity = 0
    · rw [if_pos hq, if_pos hq]
      exact trivial
    rw [if_neg hq, if_neg hq]
    by_cases hle : ¬ (dsp.quantity ≤ (st2.portfolio s).quantity)
    · rw [if_pos hle, if_pos hle]
      exact trivial
    rw [if_neg hle, if_neg hle]
    have h0 : TierAgree s
        ⟨dsp.quantity, dsp.amount, (st2.portfolio s).quantity,
          (st2.portfolio s).amount, st1.bnb_list, 0, []⟩
        ⟨dsp.quantity, dsp.amount, (st2.portfolio s).quantity,
          (st2.portfolio s).amount, st2.bnb_list, 0, []⟩ :=
      ⟨rfl, rfl, rfl, rfl, rfl, rfl, hb⟩
    rcases OptionAgree_cases (same_day_tier_parallel A s d
        (dsp.amount / dsp.quantity) dsp.fees dsp.quantity _ _ h0) with
      ⟨e1, e2⟩ | ⟨u1, v1, e1, e2, hag1⟩
    · rw [e1, e2]
      exact trivial
    · rw [e1, e2]
      dsimp only
      have hmid : OptionAgree s
          (if 0 < u1.disposal_quantity then
            (List.range BED_AND_BREAKFAST_DAYS).foldlM
              (bnb_step A D s d (dsp.amount / dsp.quantity) dsp.fees
                dsp.quantity) u1
          else some u1)
          (if 0 < v1.disposal_quantity then
            (List.range BED_AND_BREAKFAST_DAYS).foldlM
              (bnb_step A D s d (dsp.amount / dsp.quantity) dsp.fees
                dsp.quantity) v1
          else some v1) := by
        obtain ⟨q1, q2, q3, q4, q5, q6, qbl⟩ := hag1
        by_cases hdq : 0 < u1.disposal_quantity
        · rw [if_pos hdq,
            if_pos (show 0 < v1.disposal_quantity by rw [← q1]; exact hdq)]
          exact bnb_fold_parallel A D s d (dsp.amount / dsp.quantity)
            dsp.fees dsp.quantity _ u1 v1 ⟨q1, q2, q3, q4, q5, q6, qbl⟩
        · rw [if_neg hdq,
            if_neg (show ¬ 0 < v1.disposal_quantity by rw [← q1]; exact hdq)]
          exact ⟨q1, q2, q3, q4, q5, q6, qbl⟩
      rcases OptionAgree_cases hmid with ⟨e3, e4⟩ | ⟨u2, v2, e3, e4, hag2⟩
      · rw [e3, e4]
        exact trivial
      · rw [e3, e4]
        dsimp only
        rcases OptionAgree_cases (section_104_tier_parallel s dsp.fees
            dsp.quantity u2 v2 hag2) with ⟨e5, e6⟩ | ⟨u3, v3, e5, e6, hag3⟩
        · rw [e5, e6]
          exact trivial
        · rw [e5, e6]
          dsimp only
          obtain ⟨g1, g2, g3, g4, g5, g6, gbl⟩ := hag3
          by_cases hr : ¬ round_decimal u3.disposal_quantity 23 = 0
          · rw [if_pos hr,
              if_pos (show ¬ round_decimal v3.disposal_quantity 23 = 0 by
                rw [← g1]; exact hr)]
            exact trivial
          · rw [if_neg hr,
              if_neg (show ¬¬ round_decimal v3.disposal_quantity 23 = 0 by
                rw [← g1]; exact hr)]
            refine ⟨by rw [g5], g6, rfl, ?_, fun d2 => gbl d2⟩
            simp only [updatePos_same]
            rw [g3, g4]

theorem lookup_cons_self {β : Type} (k : String) (v : β)
    (l : List (String × β)) : List.lookup k ((k, v) :: l) = some v := by
  simp [List.lookup]

theorem lookup_cons_ne {β : Type} (a k : String) (v : β)
    (l : List (String × β)) (h : a ≠ k) :
    List.lookup a ((k, v) :: l) = List.lookup a l := by
  have hbeq : (a == k) = false := beq_eq_false_iff_ne.mpr h
  simp [List.lookup, hbeq]

/-- A successful acquisition only changes its own symbol's position. -/
theorem process_acquisition_frame (A : TxLog) (s : String) (d : ℤ)
    (st : CalcState) (r : AcqResult)
    (h : process_acquisition A s d st = some r) :
    (∀ t, t ≠ s → r.state.portfolio t = st.portfolio t) ∧
    r.state.bnb_list = st.bnb_list ∧ r.state.spin_offs = st.spin_offs := by
  unfold process_acquisition at h
  cases hA : A d s with
  | none =>
    rw [hA] at h
    exact absurd h (by simp)
  | some acq =>
    rw [hA] at h
    dsimp only at h
    split_ifs at h
    all_goals try exact Option.noConfusion h
    all_goals
      simp only [Option.some.injEq] at h
      subst h
      exact ⟨fun t ht => updatePos_ne _ _ _ _ ht, rfl, rfl⟩

/-- Agreement of two optional acquisition results for one symbol. -/
def AcqAgree (s : String) : Option AcqResult → Option AcqResult → Prop
  | none, none => True
  | some r1, some r2 =>
      r1.entries = r2.entries ∧ r1.state.portfolio s = r2.state.portfolio s
  | _, _ => False

/-- An acquisition acts identically on engine states its symbol cannot tell
apart. -/
theorem process_acquisition_parallel (A : TxLog) (s : String) (d : ℤ)
    (st1 st2 : CalcState)
    (hp : st1.portfolio s = st2.portfolio s)
    (hbd : st1.bnb_list d s = st2.bnb_list d s)
    (hso : st1.spin_offs = st2.spin_offs) :
    AcqAgree s (process_acquisition A s d st1)
      (process_acquisition A s d st2) := by
  unfold process_acquisition
  cases hA : A d s with
  | none => exact trivial
  | some acq =>
    dsimp only
    simp only [has_key, hbd, hp, hso]
    split_ifs <;>
      first
        | exact trivial
        | exact ⟨rfl, by simp only [updatePos_same]⟩

/-- Processing a day's acquisitions behaves, for each symbol, like processing
that symbol alone from the day's initial state; other symbols are
untouched. -/
theorem processDayAcqs_localize (A : TxLog) (d : ℤ) (syms : List String) :
    ∀ st out, processDayAcqs A d syms st = some out → syms.Nodup →
      out.1.bnb_list = st.bnb_list ∧ out.1.spin_offs = st.spin_offs ∧
      (∀ t, t ∉ syms → out.1.portfolio t = st.portfolio t) ∧
      (∀ s ∈ syms, ∃ r, process_acquisition A s d st = some r ∧
        out.2.lookup s = some r.entries ∧
        out.1.portfolio s = r.state.portfolio s) ∧
      (∀ s, s ∉ syms → out.2.lookup s = none) := by
  induction syms with
  | nil =>
    intro st out h _
    simp only [processDayAcqs, Option.some.injEq] at h
    subst h
    exact ⟨rfl, rfl, fun t _ => rfl, by simp, fun s _ => rfl⟩
  | cons s0 rest ih =>
    intro st out h hnd
    have hs0nin : s0 ∉ rest := (List.nodup_cons.mp hnd).1
    have hndr : rest.Nodup := (List.nodup_cons.mp hnd).2
    simp only [processDayAcqs] at h
    cases hA : process_acquisition A s0 d st with
    | none =>
      rw [hA] at h
      exact absurd h (by simp)
    | some r0 =>
      rw [hA] at h
      dsimp only at h
      cases hRest : processDayAcqs A d rest r0.state with
      | none =>
        rw [hRest] at h
        exact absurd h (by simp)
      | some out1 =>
        rw [hRest] at h
        simp only [Option.some.injEq] at h
        subst h
        obtain ⟨f1, f2, f3⟩ := process_acquisition_frame A s0 d st r0 hA
        obtain ⟨L1, L2, L3, L4, L5⟩ := ih r0.state out1 hRest hndr
        refine ⟨?_, ?_, ?_, ?_, ?_⟩
        · rw [L1, f2]
        · rw [L2, f3]
        · intro t ht
          have ht0 : t ≠ s0 := fun he => ht (he ▸ List.mem_cons_self s0 rest)
          have htr : t ∉ rest := fun hm => ht (List.mem_cons_of_mem _ hm)
          rw [L3 t htr, f1 t ht0]
        · intro s hs
          rcases List.mem_cons.mp hs with rfl | hsr
          · refine ⟨r0, hA, ?_, L3 s hs0nin⟩
            exact lookup_cons_self s r0.entries out1.2
          · obtain ⟨r, hr, hl, hps⟩ := L4 s hsr
            have hne : s ≠ s0 := fun he => hs0nin (he ▸ hsr)
            have hpar := process_acquisition_parallel A s d st r0.state
              (f1 s hne).symm
              ((congrFun (congrFun f2 d) s).symm)
              f3.symm
            rw [hr] at hpar
            cases hA2 : process_acquisition A s d st with
            | none =>
              rw [hA2] at hpar
              exact hpar.elim
            | some r2 =>
              rw [hA2] at hpar
              obtain ⟨he, hp2⟩ := hpar
              refine ⟨r2, rfl, ?_, ?_⟩
              · rw [lookup_cons_ne s s0 r0.entries out1.2 hne, hl, he]
              · rw [hps, ← hp2]
        · intro s hs
          have hne : s ≠ s0 := fun he => hs (he ▸ List.mem_cons_self s0 rest)
          have hsr : s ∉ rest := fun hm => hs (List.mem_cons_of_mem _ hm)
          rw [lookup_cons_ne s s0 r0.entries out1.2 hne, L5 s hsr]

/-- With no queued spin-offs, processing a day's disposals behaves, for each
symbol, like processing that symbol alone from the day's initial state; other
symbols' positions and claim slices are untouched. -/
theorem processDayDisps_localize (A D : TxLog) (d : ℤ) (syms : List String) :
    ∀ st out, processDayDisps A D d syms st = some out → syms.Nodup →
      st.spin_offs = [] →
      out.1.spin_offs = [] ∧
      (∀ t, t ∉ syms → out.1.portfolio t = st.portfolio t ∧
        ∀ d2, out.1.bnb_list d2 t = st.bnb_list d2 t) ∧
      (∀ s ∈ syms, ∃ r, process_disposal A D s d st = some r ∧
        out.2.lookup s =
          some ⟨r.chargeable_gain, r.entries, r.spin_off_entry⟩ ∧
        out.1.portfolio s = r.state.portfolio s) ∧
      (∀ s, s ∉ syms → out.2.lookup s = none) := by
  induction syms with
  | nil =>
    intro st out h _ hso
    simp only [processDayDisps, Option.some.injEq] at h
    subst h
    exact ⟨hso, fun t _ => ⟨rfl, fun d2 => rfl⟩, by simp, fun s _ => rfl⟩
  | cons s0 rest ih =>
    intro st out h hnd hso
    have hs0nin : s0 ∉ rest := (List.nodup_cons.mp hnd).1
    have hndr : rest.Nodup := (List.nodup_cons.mp hnd).2
    simp only [processDayDisps] at h
    cases hA : process_disposal A D s0 d st with
    | none =>
      rw [hA] at h
      exact absurd h (by simp)
    | some r0 =>
      rw [hA] at h
      dsimp only at h
      cases hRest : processDayDisps A D d rest r0.state with
      | none =>
        rw [hRest] at h
        exact absurd h (by simp)
      | some out1 =>
        rw [hRest] at h
        simp only [Option.some.injEq] at h
        subst h
        obtain ⟨f1, f2, f3, f4⟩ :=
          process_disposal_frame A D s0 d st r0 hso hA
        obtain ⟨L1, L2, L3, L4⟩ := ih r0.state out1 hRest hndr f3
        refine ⟨L1, ?_, ?_, ?_⟩
        · intro t ht
          have ht0 : t ≠ s0 := fun he => ht (he ▸ List.mem_cons_self s0 rest)
          have htr : t ∉ rest := fun hm => ht (List.mem_cons_of_mem _ hm)
          obtain ⟨m1, m2⟩ := L2 t htr
          exact ⟨m1.trans (f1 t ht0), fun d2 => (m2 d2).trans (f2 d2 t ht0)⟩
        · intro s hs
          rcases List.mem_cons.mp hs with rfl | hsr
          · refine ⟨r0, hA, ?_, ?_⟩
            · exact lookup_cons_self s _ out1.2
            · exact (L2 s hs0nin).1
          · obtain ⟨r, hr, hl, hps⟩ := L3 s hsr
            have hne : s ≠ s0 := fun he => hs0nin (he ▸ hsr)
            have hpar := process_disposal_parallel A D s d st r0.state hso f3
              (f1 s hne).symm (fun d2 => (f2 d2 s hne).symm)
            rw [hr] at hpar
            cases hA2 : process_disposal A D s d st with
            | none =>
              rw [hA2] at hpar
              exact hpar.elim
            | some r2 =>
              rw [hA2] at hpar
              obtain ⟨hg, he, hse, hp2, hb2⟩ := hpar
              refine ⟨r2, rfl, ?_, ?_⟩
              · rw [lookup_cons_ne s s0 _ out1.2 hne, hl, hg, he, hse]
              · rw [hps, ← hp2]
        · intro s hs
          have hne : s ≠ s0 := fun he => hs (he ▸ List.mem_cons_self s0 rest)
          have hsr : s ∉ rest := fun hm => hs (List.mem_cons_of_mem _ hm)
          rw [lookup_cons_ne s s0 _ out1.2 hne, L4 s hsr]

/-- C9 (amended): with NO queued spin-off records, processing the symbols
that share a calendar date in a different order yields an identical final
portfolio (pool quantity and cost per symbol) and identical per-symbol
calculation entries; no processing step for one symbol changes the entries
or final pool state of another symbol. -/
theorem C9_order_independence (A D : TxLog) (d : ℤ)
    (as1 as2 ds1 ds2 : List String) (st : CalcState) (r1 r2 : DayResult)
    (hso : st.spin_offs = [])
    (hnda : as1.Nodup) (hndd : ds1.Nodup)
    (hpa : as1.Perm as2) (hpd : ds1.Perm ds2)
    (h1 : processDay A D d as1 ds1 st = some r1)
    (h2 : processDay A D d as2 ds2 st = some r2) :
    (∀ t, r1.state.portfolio t = r2.state.portfolio t) ∧
    (∀ s, r1.buys.lookup s = r2.buys.lookup s) ∧
    (∀ s, r1.sells.lookup s = r2.sells.lookup s) := by
  have hnda2 : as2.Nodup := hpa.nodup_iff.mp hnda
  have hndd2 : ds2.Nodup := hpd.nodup_iff.mp hndd
  simp only [processDay] at h1 h2
  cases hA1 : processDayAcqs A d as1 st with
  | none =>
    rw [hA1] at h1
    exact absurd h1 (by simp)
  | some mid1 =>
  obtain ⟨mst1, buys1⟩ := mid1
  rw [hA1] at h1
  dsimp only at h1
  cases hD1 : processDayDisps A D d ds1 mst1 with
  | none =>
    rw [hD1] at h1
    exact absurd h1 (by simp)
  | some fin1 =>
  obtain ⟨fst1, sells1⟩ := fin1
  rw [hD1] at h1
  dsimp only at h1
  simp only [Option.some.injEq] at h1
  subst h1
  cases hA2 : processDayAcqs A d as2 st with
  | none =>
    rw [hA2] at h2
    exact absurd h2 (by simp)
  | some mid2 =>
  obtain ⟨mst2, buys2⟩ := mid2
  rw [hA2] at h2
  dsimp only at h2
  cases hD2 : processDayDisps A D d ds2 mst2 with
  | none =>
    rw [hD2] at h2
    exact absurd h2 (by simp)
  | some fin2 =>
  obtain ⟨fst2, sells2⟩ := fin2
  rw [hD2] at h2
  dsimp only at h2
  simp only [Option.some.injEq] at h2
  subst h2
  obtain ⟨A1bnb, A1so, A1out, A1in, A1none⟩ :=
    processDayAcqs_localize A d as1 st (mst1, buys1) hA1 hnda
  obtain ⟨A2bnb, A2so, A2out, A2in, A2none⟩ :=
    processDayAcqs_localize A d as2 st (mst2, buys2) hA2 hnda2
  have hmso1 : mst1.spin_offs = [] := by rw [A1so, hso]
  have hmso2 : mst2.spin_offs = [] := by rw [A2so, hso]
  obtain ⟨D1so, D1out, D1in, D1none⟩ :=
    processDayDisps_localize A D d ds1 mst1 (fst1, sells1) hD1 hndd hmso1
  obtain ⟨D2so, D2out, D2in, D2none⟩ :=
    processDayDisps_localize A D d ds2 mst2 (fst2, sells2) hD2 hndd2 hmso2
  have hmidp : ∀ t, mst1.portfolio t = mst2.portfolio t := by
    intro t
    by_cases ht : t ∈ as1
    · obtain ⟨ra, hra, _, hpa1⟩ := A1in t ht
      obtain ⟨rb, hrb, _, hpb1⟩ := A2in t (hpa.mem_iff.mp ht)
      rw [hra] at hrb
      simp only [Option.some.injEq] at hrb
      subst hrb
      rw [hpa1, hpb1]
    · rw [A1out t ht, A2out t (fun hm => ht (hpa.mem_iff.mpr hm))]
  have hmidb : mst1.bnb_list = mst2.bnb_list := by rw [A1bnb, A2bnb]
  refine ⟨?_, ?_, ?_⟩
  · intro t
    by_cases ht : t ∈ ds1
    · obtain ⟨ra, hra, _, hpa1⟩ := D1in t ht
      obtain ⟨rb, hrb, _, hpb1⟩ := D2in t (hpd.mem_iff.mp ht)
      have hpar := process_disposal_parallel A D t d mst1 mst2 hmso1 hmso2
        (hmidp t) (fun d2 => congrFun (congrFun hmidb d2) t)
      rw [hra, hrb] at hpar
      obtain ⟨-, -, -, hp2, -⟩ := hpar
      rw [hpa1, hpb1, ← hp2]
    · rw [(D1out t ht).1, (D2out t (fun hm => ht (hpd.mem_iff.mpr hm))).1,
        hmidp t]
  · intro s
    by_cases hs : s ∈ as1
    · obtain ⟨ra, hra, hla, _⟩ := A1in s hs
      obtain ⟨rb, hrb, hlb, _⟩ := A2in s (hpa.mem_iff.mp hs)
      rw [hra] at hrb
      simp only [Option.some.injEq] at hrb
      subst hrb
      rw [hla, hlb]
    · rw [A1none s hs, A2none s (fun hm => hs (hpa.mem_iff.mpr hm))]
  · intro s
    by_cases hs : s ∈ ds1
    · obtain ⟨ra, hra, hla, _⟩ := D1in s hs
      obtain ⟨rb, hrb, hlb, _⟩ := D2in s (hpd.mem_iff.mp hs)
      have hpar := process_disposal_parallel A D s d mst1 mst2 hmso1 hmso2
        (hmidp s) (fun d2 => congrFun (congrFun hmidb d2) s)
      rw [hra, hrb] at hpar
      obtain ⟨hg, he, hse, -, -⟩ := hpar
      rw [hla, hlb, hg, he, hse]
    · rw [D1none s hs, D2none s (fun hm => hs (hpd.mem_iff.mpr hm))]

/-- C9 counterexample: spin-off record queued for source symbol "A". -/
def spinOffC9 : SpinOff := ⟨1/2, "A", "C", 0⟩

/-- C9 counterexample state: pools for "A" (cost 1000) and "B" (cost 100)
and the spin-off record for "A" still queued. -/
def stateC9 : CalcState :=
  ⟨fun s => if s = "A" then ⟨10, 1000⟩ else if s = "B" then ⟨10, 100⟩ else {},
   fun _ _ => none, [(0, [spinOffC9])]⟩

/-- C9 counterexample disposal log: sell 1 unit of "B" for 10 on day 0. -/
def disposal_listC9 : TxLog := fun d s =>
  if d = 0 ∧ s = "B" then some ⟨1, 10, 0⟩ else none

/-- C9 counterexample: with a spin-off record queued for source "A", the
processing step for symbol "B"'s disposal applies that record and rewrites
"A"'s pool cost (1000 → 500, the spin-off scan of `_process_disposal` runs on
every disposal regardless of symbol), so one symbol's processing step DOES
change another symbol's final pool state, contrary to the claim. -/
theorem C9_counterexample :
    (stateC9.portfolio "A").amount = 1000 ∧
    ((process_disposal emptyTxLog disposal_listC9 "B" 0 stateC9).map
      (fun r => ((r.state.portfolio "A").amount,
        (r.state.portfolio "B").quantity))) = some (500, 9) := by
  have hBA : (("B" : String) = "A") = False := by decide
  have hAB : (("A" : String) = "B") = False := by decide
  constructor
  · norm_num [stateC9]
  · norm_num [hBA, hAB, process_disposal, disposal_listC9, stateC9, spinOffC9,
      applySpinOffs, applySpinOffStep, same_day_tier, section_104_tier,
      round_decimal, round_half_up, updatePos, emptyTxLog,
      BED_AND_BREAKFAST_DAYS, List.range, List.range.loop, List.foldlM,
      List.foldl, bnb_step]

/-- C9 witness acquisition log: on day 0, buy 10 of "A" for 100 and 5 of "B"
for 50. -/
def acquisition_listC9w : TxLog := fun d s =>
  if d = 0 ∧ s = "A" then some ⟨10, 100, 0⟩
  else if d = 0 ∧ s = "B" then some ⟨5, 50, 0⟩ else none

/-- C9 witness initial state: empty portfolio, no queued spin-offs. -/
def stateC9w : CalcState := ⟨fun _ => {}, fun _ _ => none, []⟩

/-- Witness for C9: a concrete day with acquisitions of "A" and "B" processed
in both symbol orders yields pointwise-equal portfolios and per-symbol logs. -/
theorem C9_order_independence_witness :
    ∃ r1 r2,
      processDay acquisition_listC9w emptyTxLog 0 ["A", "B"] [] stateC9w
        = some r1 ∧
      processDay acquisition_listC9w emptyTxLog 0 ["B", "A"] [] stateC9w
        = some r2 ∧
      ((∀ t, r1.state.portfolio t = r2.state.portfolio t) ∧
       (∀ s, r1.buys.lookup s = r2.buys.lookup s) ∧
       (∀ s, r1.sells.lookup s = r2.sells.lookup s)) := by
  obtain ⟨r1, h1⟩ : ∃ r,
      processDay acquisition_listC9w emptyTxLog 0 ["A", "B"] [] stateC9w
        = some r := by
    have hBA : (("B" : String) = "A") = False := by decide
    have hAB : (("A" : String) = "B") = False := by decide
    norm_num [hBA, hAB, processDay, processDayAcqs, processDayDisps,
      process_acquisition, acquisition_listC9w, stateC9w, emptyTxLog, has_key,
      updatePos, add_to_list]
  obtain ⟨r2, h2⟩ : ∃ r,
      processDay acquisition_listC9w emptyTxLog 0 ["B", "A"] [] stateC9w
        = some r := by
    have hBA : (("B" : String) = "A") = False := by decide
    have hAB : (("A" : String) = "B") = False := by decide
    norm_num [hBA, hAB, processDay, processDayAcqs, processDayDisps,
      process_acquisition, acquisition_listC9w, stateC9w, emptyTxLog, has_key,
      updatePos, add_to_list]
  exact ⟨r1, r2, h1, h2,
    C9_order_independence acquisition_listC9w emptyTxLog 0 ["A", "B"]
      ["B", "A"] [] [] stateC9w r1 r2 rfl (by decide) List.nodup_nil
      (List.Perm.swap "B" "A" []) (List.Perm.refl []) h1 h2⟩

end CgtCalc
